import Mathlib

/-
Formal model of the calculation engine of the sand-point-re-app repository.

Shallow embedding conventions:
  * Python floats are modelled as exact numbers: rational arithmetic (ℚ) where the
    source only uses field operations with integer powers, and real arithmetic (ℝ)
    where the source takes powers with non-integer exponents
    (expense escalation, compound monthly preferred rate, XNPV day-count discounting).
  * Python dict/list state is modelled with explicit state records threaded through
    folds; fallible code (raise ValueError) is modelled with Except String.
  * Python round(x, 2) is ties-to-even on binary floats; it is modelled with
    Mathlib round (nearest integer, ties up) scaled by 100, which agrees with the
    source except at exact half-cent ties, which no statement below touches.
-/

/-! # Calendar dates

Models datetime.date together with the two operations the engine uses:
relativedelta(months = k) (month arithmetic with day-of-month clamping) and
subtraction of two dates in days (proleptic Gregorian calendar). -/

structure Date where
  year : ℕ
  month : ℕ
  day : ℕ
deriving DecidableEq, Repr

def isLeapYear (y : ℕ) : Bool :=
  y % 4 = 0 && (y % 100 ≠ 0 || y % 400 = 0)

def daysInMonthOf (y m : ℕ) : ℕ :=
  if m = 1 then 31
  else if m = 2 then (if isLeapYear y then 29 else 28)
  else if m = 3 then 31
  else if m = 4 then 30
  else if m = 5 then 31
  else if m = 6 then 30
  else if m = 7 then 31
  else if m = 8 then 31
  else if m = 9 then 30
  else if m = 10 then 31
  else if m = 11 then 30
  else 31

def daysBeforeMonth (y m : ℕ) : ℕ :=
  (List.range (m - 1)).foldl (fun acc k => acc + daysInMonthOf y (k + 1)) 0

def Date.toDays (d : Date) : ℕ :=
  365 * (d.year - 1) + (d.year - 1) / 4 - (d.year - 1) / 100 + (d.year - 1) / 400
    + daysBeforeMonth d.year d.month + (d.day - 1)

/-- relativedelta(months = k): advance the month index, clamping the day of month. -/
def Date.addMonths (d : Date) (k : ℕ) : Date :=
  let t := d.year * 12 + (d.month - 1) + k
  let y := t / 12
  let m := t % 12 + 1
  ⟨y, m, min d.day (daysInMonthOf y m)⟩

/-- (date2 - date1).days -/
def days_between (date1 date2 : Date) : ℤ :=
  (date2.toDays : ℤ) - (date1.toDays : ℤ)

/-- calculate_days_in_month from cashflow.py: days from the period date to the
same date one month later. -/
def calculate_days_in_month (period_date : Date) : ℤ :=
  days_between period_date (period_date.addMonths 1)

/-- generate_monthly_dates from cashflow.py. -/
def generate_monthly_dates (start_date : Date) (num_months : ℕ) : List Date :=
  (List.range (num_months + 1)).map (fun i => start_date.addMonths i)

/-- Python round(x, 2) (modulo the tie-breaking caveat in the header comment). -/
noncomputable def round2 (x : ℝ) : ℝ := (round (x * 100) : ℤ) / 100

/-- Python round(x, 6). -/
noncomputable def round6 (x : ℝ) : ℝ := (round (x * 1000000) : ℤ) / 1000000

/-! # app/calculations/irr.py -/

def MAX_ITERATIONS : ℕ := 100

def TOLERANCE : ℚ := 1 / 10000000

def DEFAULT_GUESS : ℚ := 1 / 10

/-- calculate_npv: NPV with integer period index.  The source loops over
enumerate(cash_flows) accumulating cf / (1+rate)^period. -/
def calculate_npv (cash_flows : List ℚ) (discount_rate : ℚ) : ℚ :=
  cash_flows.enum.foldl
    (fun acc pc => acc + pc.2 / (1 + discount_rate) ^ pc.1) 0

/-- npv_derivative (source name has a leading underscore): derivative of NPV in the rate. -/
def npv_derivative (cash_flows : List ℚ) (rate : ℚ) : ℚ :=
  cash_flows.enum.foldl
    (fun acc pc => acc - ((pc.1 : ℚ) * pc.2) / (1 + rate) ^ (pc.1 + 1)) 0

/-- The Newton-Raphson loop of calculate_irr, with the iteration budget as fuel. -/
def irrLoop (cash_flows : List ℚ) : ℕ → ℚ → Except String ℚ
  | 0, _ => .error "IRR calculation did not converge"
  | fuel + 1, rate =>
    let npv := calculate_npv cash_flows rate
    let dnpv := npv_derivative cash_flows rate
    if |dnpv| < TOLERANCE then .error "IRR calculation failed: derivative too small"
    else
      let new_rate := rate - npv / dnpv
      if |new_rate - rate| < TOLERANCE then .ok new_rate
      else irrLoop cash_flows fuel new_rate

/-- calculate_irr: input validation, then Newton-Raphson from the guess. -/
def calculate_irr (cash_flows : List ℚ) (guess : ℚ) : Except String ℚ :=
  if cash_flows.length < 2 then .error "At least 2 cash flows required"
  else
    let has_positive := cash_flows.any (fun cf => cf > 0)
    let has_negative := cash_flows.any (fun cf => cf < 0)
    if ¬has_positive ∨ ¬has_negative then
      .error "Cash flows must contain both positive and negative values"
    else irrLoop cash_flows MAX_ITERATIONS guess

/-- calculate_multiple: (sum of positive flows) / |sum of negative flows|. -/
def calculate_multiple {α : Type} [LinearOrderedField α] (cash_flows : List α) :
    Except String α :=
  let total_inflows := (cash_flows.filter (fun cf => cf > 0)).sum
  let total_outflows := |(cash_flows.filter (fun cf => cf < 0)).sum|
  if total_outflows = 0 then .error "No investment (outflows) found"
  else .ok (total_inflows / total_outflows)

/-- calculate_profit: plain sum of the flows. -/
def calculate_profit {α : Type} [LinearOrderedField α] (cash_flows : List α) : α :=
  cash_flows.sum

/-- The summation inside calculate_xnpv.  Both calculate_xnpv and the XIRR
Newton loop evaluate this sum; calculate_xirr checks the array lengths before
the loop ever runs, so the loop uses the raw sum directly. -/
noncomputable def xnpvSum (cash_flows : List ℝ) (dates : List Date) (discount_rate : ℝ) : ℝ :=
  match dates.head? with
  | none => 0
  | some base_date =>
    (cash_flows.zip dates).foldl
      (fun acc cd =>
        let years : ℝ := (days_between base_date cd.2 : ℤ) / 365
        acc + cd.1 / (1 + discount_rate) ^ years) 0

/-- calculate_xnpv: raises on mismatched array lengths, else the dated NPV sum. -/
noncomputable def calculate_xnpv (cash_flows : List ℝ) (dates : List Date)
    (discount_rate : ℝ) : Except String ℝ :=
  if cash_flows.length ≠ dates.length then
    .error "Cash flows and dates arrays must have same length"
  else .ok (xnpvSum cash_flows dates discount_rate)

/-- xnpv_derivative (underscore-prefixed in the source): derivative of XNPV in the rate. -/
noncomputable def xnpv_derivative (cash_flows : List ℝ) (dates : List Date) (rate : ℝ) : ℝ :=
  match dates.head? with
  | none => 0
  | some base_date =>
    (cash_flows.zip dates).foldl
      (fun acc cd =>
        let years : ℝ := (days_between base_date cd.2 : ℤ) / 365
        acc - (years * cd.1) / (1 + rate) ^ (years + 1)) 0

/-- The Newton loop of try_xirr_with_guess: converged results are accepted
only inside (-1, 10); otherwise the next rate is clamped into [-0.99, 10]. -/
noncomputable def tryXirrLoop (cash_flows : List ℝ) (dates : List Date) :
    ℕ → ℝ → Option ℝ
  | 0, _ => none
  | fuel + 1, rate =>
    let xnpv := xnpvSum cash_flows dates rate
    let dxnpv := xnpv_derivative cash_flows dates rate
    if |dxnpv| < (TOLERANCE : ℝ) then none
    else
      let new_rate := rate - xnpv / dxnpv
      if |new_rate - rate| < (TOLERANCE : ℝ) then
        if -1 < new_rate ∧ new_rate < 10 then some new_rate else none
      else
        let clamped :=
          if new_rate < -(99 / 100 : ℝ) then -(99 / 100 : ℝ)
          else if new_rate > 10 then (10 : ℝ)
          else new_rate
        tryXirrLoop cash_flows dates fuel clamped

/-- try_xirr_with_guess (underscore-prefixed in the source). -/
noncomputable def try_xirr_with_guess (cash_flows : List ℝ) (dates : List Date)
    (guess : ℝ) : Option ℝ :=
  tryXirrLoop cash_flows dates MAX_ITERATIONS guess

/-- The bisection loop at the end of calculate_xirr (fuel = 100 iterations).
Carries low, high and the XNPV values at the current bracket ends. -/
noncomputable def xirrBisect (cash_flows : List ℝ) (dates : List Date) :
    ℕ → ℝ → ℝ → ℝ → ℝ → ℝ
  | 0, low, high, _, _ => (low + high) / 2
  | fuel + 1, low, high, xnpv_low, xnpv_high =>
    let mid := (low + high) / 2
    let xnpv_mid := xnpvSum cash_flows dates mid
    if |xnpv_mid| < (TOLERANCE : ℝ) then mid
    else if xnpv_low * xnpv_mid < 0 then
      xirrBisect cash_flows dates fuel low mid xnpv_low xnpv_mid
    else
      xirrBisect cash_flows dates fuel mid high xnpv_mid xnpv_high

/-- The first successful result among the seed guesses tried in order. -/
noncomputable def xirrTryGuesses (cash_flows : List ℝ) (dates : List Date) :
    List ℝ → Option ℝ
  | [] => none
  | g :: rest =>
    match try_xirr_with_guess cash_flows dates g with
    | some r => some r
    | none => xirrTryGuesses cash_flows dates rest

/-- The bracket-expansion step of calculate_xirr: starting from the bracket
(-0.99, 1), when the XNPV values at both ends have the same sign the high end
is tried at 2, 5 and 10; the returned pair is the chosen high end together
with the XNPV value the source carries into the final sign test.  Mirrors the
source exactly, including the quirk that when no expansion finds a sign
change the final test reuses the XNPV value at 10 while high stays 1. -/
noncomputable def xirrBracket (cash_flows : List ℝ) (dates : List Date)
    (xnpv_low xnpv_high : ℝ) : ℝ × ℝ :=
  if xnpv_low * xnpv_high > 0 then
    let x2 := xnpvSum cash_flows dates 2
    if xnpv_low * x2 < 0 then (2, x2)
    else
      let x5 := xnpvSum cash_flows dates 5
      if xnpv_low * x5 < 0 then (5, x5)
      else
        let x10 := xnpvSum cash_flows dates 10
        if xnpv_low * x10 < 0 then (10, x10)
        else (1, x10)
  else (1, xnpv_high)

/-- calculate_xirr: validation, a fixed ordered list of Newton seeds, then a
bisection fallback over the expanding bracket of xirrBracket. -/
noncomputable def calculate_xirr (cash_flows : List ℝ) (dates : List Date)
    (guess : ℝ) : Except String ℝ :=
  if cash_flows.length ≠ dates.length then
    .error "Cash flows and dates arrays must have same length"
  else if cash_flows.length < 2 then .error "At least 2 cash flows required"
  else
    let has_positive := cash_flows.any (fun cf => cf > 0)
    let has_negative := cash_flows.any (fun cf => cf < 0)
    if ¬has_positive ∨ ¬has_negative then
      .error "Cash flows must contain both positive and negative values"
    else
      let guesses : List ℝ :=
        [guess, 5 / 100, 1 / 10, 15 / 100, 2 / 10, 1 / 100, -(5 / 100), 3 / 10, 5 / 10]
      match xirrTryGuesses cash_flows dates guesses with
      | some r => .ok r
      | none =>
        let low : ℝ := -(99 / 100)
        let xnpv_low := xnpvSum cash_flows dates low
        let xnpv_high := xnpvSum cash_flows dates 1
        let pair := xirrBracket cash_flows dates xnpv_low xnpv_high
        if xnpv_low * pair.2 < 0 then
          .ok (xirrBisect cash_flows dates 100 low pair.1 xnpv_low pair.2)
        else .error "XIRR calculation did not converge"

/-- monthly_to_annual_irr. -/
def monthly_to_annual_irr (monthly_irr : ℚ) : ℚ := (1 + monthly_irr) ^ 12 - 1

/-- annual_to_monthly_irr. -/
noncomputable def annual_to_monthly_irr (annual_irr : ℝ) : ℝ :=
  (1 + annual_irr) ^ ((1 : ℝ) / 12) - 1

/-! # app/calculations/cashflow.py -/

/-- Tenant (cashflow.py).  Monetary rates are per square foot per year. -/
structure Tenant where
  name : String
  rsf : ℚ
  in_place_rent_psf : ℚ
  market_rent_psf : ℚ
  lease_end_month : ℕ
  apply_rollover_costs : Bool := true
  free_rent_months : ℕ := 0
  free_rent_start_month : ℕ := 0
  ti_buildout_months : ℕ := 0
  lc_percent_years_1_5 : ℚ := 6 / 100
  lc_percent_years_6_plus : ℚ := 3 / 100
  new_lease_term_years : ℕ := 10
  ti_allowance_psf : ℚ := 0
deriving DecidableEq

/-- RateCurve (cashflow.py): mapping from dates to SOFR rates.  The dict keys
are unique; the list below carries them in insertion order. -/
structure RateCurve where
  rates : List (Date × ℚ)
deriving DecidableEq

/-- The entry with the latest date among a list of curve entries. -/
def latestEntry (l : List (Date × ℚ)) : Option (Date × ℚ) :=
  l.foldl
    (fun acc p =>
      match acc with
      | none => some p
      | some q => if q.1.toDays < p.1.toDays then some p else some q) none

/-- The entry with the earliest date among a list of curve entries. -/
def earliestEntry (l : List (Date × ℚ)) : Option (Date × ℚ) :=
  l.foldl
    (fun acc p =>
      match acc with
      | none => some p
      | some q => if p.1.toDays < q.1.toDays then some p else some q) none

/-- RateCurve.get_rate: the most recent rate on or before the date, the
earliest known rate if the date precedes all entries, 0 if the curve is empty. -/
def RateCurve.get_rate (c : RateCurve) (period_date : Date) : ℚ :=
  if c.rates = [] then 0
  else
    let applicable := c.rates.filter (fun p => p.1.toDays ≤ period_date.toDays)
    match applicable with
    | [] =>
      match earliestEntry c.rates with
      | some p => p.2
      | none => 0
    | _ =>
      match latestEntry applicable with
      | some p => p.2
      | none => 0

/-- calculate_rent_escalation: monthly compounding, (1 + rate/12)^period. -/
def calculate_rent_escalation (annual_rate : ℚ) (period : ℕ) : ℚ :=
  (1 + annual_rate / 12) ^ period

/-- calculate_expense_escalation: annual rate spread over months,
(1 + rate)^(period/12) with a real exponent. -/
noncomputable def calculate_expense_escalation (annual_rate : ℚ) (period : ℕ) : ℝ :=
  (1 + (annual_rate : ℝ)) ^ ((period : ℝ) / 12)

/-- calculate_tenant_rent_detailed: (gross rent, free-rent deduction) for one
tenant and month, in thousands. -/
def calculate_tenant_rent_detailed (tenant : Tenant) (period : ℕ)
    (rent_growth : ℚ) : ℚ × ℚ :=
  let escalation_factor := calculate_rent_escalation rent_growth period
  if period ≤ tenant.lease_end_month then
    if tenant.free_rent_start_month > 0 ∧
        tenant.free_rent_start_month ≤ period ∧
        period < tenant.free_rent_start_month + tenant.free_rent_months then
      let gross_rent := tenant.rsf * tenant.in_place_rent_psf * escalation_factor / 12 / 1000
      (gross_rent, -gross_rent)
    else
      (tenant.rsf * tenant.in_place_rent_psf * escalation_factor / 12 / 1000, 0)
  else
    let rollover_month := tenant.lease_end_month + 1
    if tenant.apply_rollover_costs then
      let ti_end := rollover_month + tenant.ti_buildout_months
      if rollover_month ≤ period ∧ period < ti_end then (0, 0)
      else
        let gross_rent := tenant.rsf * tenant.market_rent_psf * escalation_factor / 12 / 1000
        if ti_end ≤ period ∧ period < ti_end + tenant.free_rent_months then
          (gross_rent, -gross_rent)
        else (gross_rent, 0)
    else
      (tenant.rsf * tenant.market_rent_psf * escalation_factor / 12 / 1000, 0)

/-- calculate_tenant_rent: net rent, gross plus the (nonpositive) deduction. -/
def calculate_tenant_rent (tenant : Tenant) (period : ℕ) (rent_growth : ℚ) : ℚ :=
  (calculate_tenant_rent_detailed tenant period rent_growth).1 +
    (calculate_tenant_rent_detailed tenant period rent_growth).2

/-- calculate_lease_commission: year-by-year commission over the new lease term. -/
def calculate_lease_commission (tenant : Tenant) (rent_growth : ℚ)
    (rollover_month : ℕ) : ℚ :=
  if ¬tenant.apply_rollover_costs then 0
  else
    let escalation_factor := calculate_rent_escalation rent_growth rollover_month
    let annual_rent_year_1 := tenant.rsf * tenant.market_rent_psf * escalation_factor
    let total_lc :=
      (List.range tenant.new_lease_term_years).foldl
        (fun acc k =>
          let year := k + 1
          let annual_rent :=
            if year = 1 then annual_rent_year_1
            else annual_rent_year_1 * (1 + rent_growth) ^ (year - 1)
          let net_rent :=
            if year = 1 ∧ tenant.free_rent_months > 0 then
              annual_rent * ((12 : ℚ) - (tenant.free_rent_months : ℚ)) / 12
            else annual_rent
          let lc_rate :=
            if year ≤ 5 then tenant.lc_percent_years_1_5
            else tenant.lc_percent_years_6_plus
          acc + net_rent * lc_rate) 0
    total_lc / 1000

/-- calculate_ti_cost: one-time TI allowance cost at rollover. -/
def calculate_ti_cost (tenant : Tenant) (rent_growth : ℚ) (rollover_month : ℕ) : ℚ :=
  if ¬tenant.apply_rollover_costs then 0
  else
    let escalation_factor := calculate_rent_escalation rent_growth rollover_month
    tenant.rsf * tenant.ti_allowance_psf * escalation_factor / 1000

/-- calculate_total_tenant_rent: sum of net rents over the rent roll. -/
def calculate_total_tenant_rent (tenants : List Tenant) (period : ℕ)
    (rent_growth : ℚ) : ℚ :=
  (tenants.map (fun tenant => calculate_tenant_rent tenant period rent_growth)).sum

/-- The full parameter list of generate_cash_flows, with the source defaults.
The tenants field combines the None and empty-list cases, which the source
treats identically.  Call sites that rely on defaults spell them out. -/
structure Args where
  acquisition_date : Date
  hold_period_months : ℕ
  purchase_price : ℚ
  closing_costs : ℚ
  total_sf : ℚ
  in_place_rent_psf : ℚ
  market_rent_psf : ℚ
  rent_growth : ℚ
  vacancy_rate : ℚ
  fixed_opex_psf : ℚ
  management_fee_percent : ℚ
  property_tax_amount : ℚ
  capex_reserve_psf : ℚ
  expense_growth : ℚ
  exit_cap_rate : ℚ
  sales_cost_percent : ℚ
  loan_amount : Option ℚ := none
  interest_rate : ℚ := 525 / 10000
  io_months : ℕ := 120
  amortization_years : ℕ := 30
  tenants : List Tenant := []
  nnn_lease : Bool := true
  use_actual_365 : Bool := true
  variable_opex_psf : ℚ := 0
  parking_stalls : ℕ := 0
  parking_rate_per_stall : ℚ := 0
  storage_units : ℕ := 0
  storage_rate_per_unit : ℚ := 0
  loan_origination_fee : ℚ := 0
  loan_closing_costs : ℚ := 0
  interest_type : String := "fixed"
  floating_spread : ℚ := 0
  rate_curve : Option RateCurve := none
  capitalize_interest : Bool := false

/-- One row of the first pass of generate_cash_flows (revenue, expense, NOI
lines, computed per period before any loan state is involved). -/
structure PeriodData where
  base_rent : ℝ
  parking_income : ℝ
  storage_income : ℝ
  other_income : ℝ
  reimbursement_fixed : ℝ
  reimbursement_variable : ℝ
  total_reimbursement : ℝ
  potential_revenue : ℝ
  vacancy_loss : ℝ
  effective_revenue : ℝ
  fixed_opex : ℝ
  variable_opex : ℝ
  mgmt_fee : ℝ
  prop_tax : ℝ
  capex : ℝ
  total_expenses : ℝ
  noi : ℝ

/-- The body of the first pass of generate_cash_flows.  The source appends one
dict per period to a list; each entry depends only on its own period index, so
the pass is modelled as a function of the period. -/
noncomputable def periodData (a : Args) (period : ℕ) : PeriodData :=
  let base_rent_0 : ℝ :=
    if a.tenants ≠ [] then
      (calculate_total_tenant_rent a.tenants period a.rent_growth : ℝ)
    else
      ((a.total_sf * a.in_place_rent_psf *
          calculate_rent_escalation a.rent_growth period / 12 / 1000 : ℚ) : ℝ)
  let base_rent : ℝ := if period = 0 then 0 else base_rent_0
  let rent_escalation := calculate_rent_escalation a.rent_growth period
  let parking_income : ℝ :=
    if period > 0 then
      (((a.parking_stalls : ℚ) * a.parking_rate_per_stall * rent_escalation / 1000 : ℚ) : ℝ)
    else 0
  let storage_income : ℝ :=
    if period > 0 then
      (((a.storage_units : ℚ) * a.storage_rate_per_unit * rent_escalation / 1000 : ℚ) : ℝ)
    else 0
  let other_income := parking_income + storage_income
  let expense_escalation := calculate_expense_escalation a.expense_growth period
  let expense_sf : ℚ := if a.tenants ≠ [] then (a.tenants.map Tenant.rsf).sum else a.total_sf
  let fixed_opex : ℝ := (expense_sf : ℝ) * (a.fixed_opex_psf : ℝ) * expense_escalation / 12 / 1000
  let var_opex : ℝ := (expense_sf : ℝ) * (a.variable_opex_psf : ℝ) * expense_escalation / 12 / 1000
  let prop_tax : ℝ := (a.property_tax_amount : ℝ) * expense_escalation / 12
  let capex : ℝ := (expense_sf : ℝ) * (a.capex_reserve_psf : ℝ) * expense_escalation / 12 / 1000
  let reimbursement_fixed : ℝ :=
    if a.nnn_lease ∧ period > 0 then fixed_opex + var_opex + prop_tax else 0
  let potential_revenue := base_rent + other_income + reimbursement_fixed
  let vacancy_loss := -(potential_revenue * (a.vacancy_rate : ℝ))
  let effective_revenue := potential_revenue + vacancy_loss
  let mgmt_fee := effective_revenue * (a.management_fee_percent : ℝ)
  let reimbursement_variable : ℝ := if a.nnn_lease ∧ period > 0 then mgmt_fee else 0
  let potential_revenue2 :=
    if a.nnn_lease ∧ period > 0 then potential_revenue + reimbursement_variable
    else potential_revenue
  let effective_revenue2 :=
    if a.nnn_lease ∧ period > 0 then effective_revenue + reimbursement_variable
    else effective_revenue
  let total_reimbursement := reimbursement_fixed + reimbursement_variable
  let total_expenses := fixed_opex + var_opex + mgmt_fee + prop_tax + capex
  let noi := effective_revenue2 - total_expenses
  { base_rent := base_rent
    parking_income := parking_income
    storage_income := storage_income
    other_income := other_income
    reimbursement_fixed := reimbursement_fixed
    reimbursement_variable := reimbursement_variable
    total_reimbursement := total_reimbursement
    potential_revenue := potential_revenue2
    vacancy_loss := vacancy_loss
    effective_revenue := effective_revenue2
    fixed_opex := fixed_opex
    variable_opex := var_opex
    mgmt_fee := mgmt_fee
    prop_tax := prop_tax
    capex := capex
    total_expenses := total_expenses
    noi := noi }

/-- Modelled from the spec: calculate_payment lives in
app/calculations/amortization.py, which is not under src/ (only its callers
are).  Spec section 4.2 AmortizationEngine: the level payment for principal,
annual rate and term in months via the standard annuity formula on the monthly
rate, falling back to straight-line principal/term when the rate is zero. -/
noncomputable def calculate_payment (principal : ℝ) (annual_rate : ℝ)
    (amortization_months : ℕ) : ℝ :=
  if annual_rate = 0 then principal / (amortization_months : ℝ)
  else
    let monthly_rate := annual_rate / 12
    principal * monthly_rate / (1 - (1 + monthly_rate) ^ (-(amortization_months : ℤ)))

/-- The pre-computed lease rollover cost table of generate_cash_flows:
total (lease commissions, TI costs) falling due in the given period.  The
source accumulates per-tenant contributions into a dict keyed by the rollover
month; a missing key means both costs are zero. -/
def rolloverCosts (a : Args) (period : ℕ) : ℚ × ℚ :=
  a.tenants.foldl
    (fun acc tenant =>
      let rollover_month := tenant.lease_end_month + 1
      if 0 < rollover_month ∧ rollover_month ≤ a.hold_period_months ∧
          rollover_month = period then
        (acc.1 + calculate_lease_commission tenant a.rent_growth rollover_month,
         acc.2 + calculate_ti_cost tenant a.rent_growth rollover_month)
      else acc) (0, 0)

/-- The loan state threaded through the second pass of generate_cash_flows. -/
structure LoanState where
  balance : ℝ
  total_capitalized_interest : ℝ

/-- One output row of generate_cash_flows (the isoformat date string is kept
as the date itself). -/
structure FlowRecord where
  period : ℕ
  date : Date
  base_rent : ℝ
  parking_income : ℝ
  storage_income : ℝ
  other_income : ℝ
  reimbursement_revenue : ℝ
  potential_revenue : ℝ
  vacancy_loss : ℝ
  effective_revenue : ℝ
  fixed_opex : ℝ
  variable_opex : ℝ
  management_fee : ℝ
  property_tax : ℝ
  capex_reserve : ℝ
  total_expenses : ℝ
  noi : ℝ
  acquisition_costs : ℝ
  lease_commission : ℝ
  ti_cost : ℝ
  exit_proceeds : ℝ
  effective_interest_rate : ℝ
  interest_expense : ℝ
  principal_payment : ℝ
  debt_service : ℝ
  capitalized_interest : ℝ
  loan_balance : ℝ
  loan_payoff : ℝ
  unleveraged_cash_flow : ℝ
  leveraged_cash_flow : ℝ

/-- The second pass of generate_cash_flows for one period, up to and including
the leveraged cash flow before the capitalized-interest adjustment
(source lines up to the loan-proceeds addition). -/
structure StepCore where
  acquisition_costs : ℝ
  lease_commission_cost : ℝ
  ti_cost : ℝ
  exit_proceeds : ℝ
  effective_rate : ℝ
  interest_expense : ℝ
  principal_payment : ℝ
  debt_service : ℝ
  balance_after_debt : ℝ
  unleveraged_cf : ℝ
  leveraged_pre : ℝ

/-- Forward 12-month NOI beyond the given period, summed from the extended
first pass (used for exit valuation at the final hold period). -/
noncomputable def forwardNoi (a : Args) (period : ℕ) : ℝ :=
  (List.range 12).foldl
    (fun acc m => acc + (periodData a (period + (m + 1))).noi) 0

noncomputable def stepCore (a : Args) (st : LoanState) (period : ℕ) : StepCore :=
  let period_date := a.acquisition_date.addMonths period
  let noi := (periodData a period).noi
  let acquisition_costs : ℝ :=
    if period = 0 then ((a.purchase_price + a.closing_costs : ℚ) : ℝ) else 0
  let rc := rolloverCosts a period
  let lease_commission_cost : ℝ := (rc.1 : ℝ)
  let ti_cost : ℝ := (rc.2 : ℝ)
  let exit_proceeds : ℝ :=
    if period = a.hold_period_months then
      let forward_noi := forwardNoi a period
      let gross_value := if a.exit_cap_rate > 0 then forward_noi / (a.exit_cap_rate : ℝ) else 0
      let sales_costs_amount := gross_value * (a.sales_cost_percent : ℝ)
      gross_value - sales_costs_amount
    else 0
  let debt :=
    if st.balance > 0 ∧ period > 0 then
      let effective_rate : ℚ :=
        if a.interest_type = "floating" ∧ a.rate_curve.isSome then
          (match a.rate_curve with
           | some curve => curve.get_rate period_date
           | none => 0) + a.floating_spread
        else a.interest_rate
      let period_draws : ℝ := 0
      let avg_balance := st.balance + period_draws / 2
      let interest_expense : ℝ :=
        if a.use_actual_365 then
          let days_in_month := calculate_days_in_month period_date
          avg_balance * ((effective_rate : ℝ) / 365) * (days_in_month : ℝ)
        else avg_balance * ((effective_rate : ℝ) / 12)
      if period ≤ a.io_months then
        ((effective_rate : ℝ), interest_expense, (0 : ℝ), interest_expense, st.balance)
      else
        let amort_months := a.amortization_years * 12
        let payment := calculate_payment st.balance (effective_rate : ℝ) amort_months
        let principal_payment := payment - interest_expense
        ((effective_rate : ℝ), interest_expense, principal_payment, payment,
          st.balance - principal_payment)
    else ((a.interest_rate : ℝ), 0, 0, 0, st.balance)
  let total_capital_costs := lease_commission_cost + ti_cost
  let unleveraged_cf := noi - acquisition_costs - total_capital_costs + exit_proceeds
  let leveraged_cf := unleveraged_cf - debt.2.2.2.1
  let leveraged_pre :=
    if period = 0 ∧ a.loan_amount.getD 0 > 0 then
      leveraged_cf +
        ((a.loan_amount.getD 0 - a.loan_origination_fee - a.loan_closing_costs : ℚ) : ℝ)
    else leveraged_cf
  { acquisition_costs := acquisition_costs
    lease_commission_cost := lease_commission_cost
    ti_cost := ti_cost
    exit_proceeds := exit_proceeds
    effective_rate := debt.1
    interest_expense := debt.2.1
    principal_payment := debt.2.2.1
    debt_service := debt.2.2.2.1
    balance_after_debt := debt.2.2.2.2
    unleveraged_cf := unleveraged_cf
    leveraged_pre := leveraged_pre }

/-- One full iteration of the second pass of generate_cash_flows: the core
computation, then the capitalized-interest adjustment inside the
interest-only window, then the exit loan payoff.  Produces the (unrounded)
output row and the next loan state. -/
noncomputable def cashFlowStep (a : Args) (st : LoanState) (period : ℕ) :
    FlowRecord × LoanState :=
  let c := stepCore a st period
  let capitalized_interest : ℝ :=
    if a.capitalize_interest ∧ period > 0 ∧ period ≤ a.io_months ∧ c.leveraged_pre < 0 then
      min c.interest_expense |c.leveraged_pre|
    else 0
  let balance2 := c.balance_after_debt + capitalized_interest
  let total_cap2 := st.total_capitalized_interest + capitalized_interest
  let leveraged2 := c.leveraged_pre + capitalized_interest
  let loan_payoff : ℝ :=
    if period = a.hold_period_months ∧ a.loan_amount.getD 0 > 0 then balance2 else 0
  let leveraged3 := leveraged2 - loan_payoff
  let d := periodData a period
  ({ period := period
     date := a.acquisition_date.addMonths period
     base_rent := d.base_rent
     parking_income := d.parking_income
     storage_income := d.storage_income
     other_income := d.other_income
     reimbursement_revenue := d.total_reimbursement
     potential_revenue := d.potential_revenue
     vacancy_loss := d.vacancy_loss
     effective_revenue := d.effective_revenue
     fixed_opex := d.fixed_opex
     variable_opex := d.variable_opex
     management_fee := d.mgmt_fee
     property_tax := d.prop_tax
     capex_reserve := d.capex
     total_expenses := d.total_expenses
     noi := d.noi
     acquisition_costs := c.acquisition_costs
     lease_commission := c.lease_commission_cost
     ti_cost := c.ti_cost
     exit_proceeds := c.exit_proceeds
     effective_interest_rate := c.effective_rate
     interest_expense := c.interest_expense
     principal_payment := c.principal_payment
     debt_service := c.debt_service
     capitalized_interest := capitalized_interest
     loan_balance := balance2
     loan_payoff := loan_payoff
     unleveraged_cash_flow := c.unleveraged_cf
     leveraged_cash_flow := leveraged3 },
   { balance := balance2, total_capitalized_interest := total_cap2 })

/-- The sequential second-pass loop over periods 0..hold_period_months. -/
noncomputable def cashFlowGo (a : Args) : ℕ → ℕ → LoanState → List FlowRecord
  | _, 0, _ => []
  | i, n + 1, st =>
    let rs := cashFlowStep a st i
    rs.1 :: cashFlowGo a (i + 1) n rs.2

/-- The unrounded output series of generate_cash_flows. -/
noncomputable def cashFlowListRaw (a : Args) : List FlowRecord :=
  cashFlowGo a 0 (a.hold_period_months + 1) ⟨(a.loan_amount.getD 0 : ℝ), 0⟩

/-- The rounding the source applies when appending each output dict. -/
noncomputable def roundFlowRecord (r : FlowRecord) : FlowRecord :=
  { r with
    base_rent := round2 r.base_rent
    parking_income := round2 r.parking_income
    storage_income := round2 r.storage_income
    other_income := round2 r.other_income
    reimbursement_revenue := round2 r.reimbursement_revenue
    potential_revenue := round2 r.potential_revenue
    vacancy_loss := round2 r.vacancy_loss
    effective_revenue := round2 r.effective_revenue
    fixed_opex := round2 r.fixed_opex
    variable_opex := round2 r.variable_opex
    management_fee := round2 r.management_fee
    property_tax := round2 r.property_tax
    capex_reserve := round2 r.capex_reserve
    total_expenses := round2 r.total_expenses
    noi := round2 r.noi
    acquisition_costs := round2 r.acquisition_costs
    lease_commission := round2 r.lease_commission
    ti_cost := round2 r.ti_cost
    exit_proceeds := round2 r.exit_proceeds
    effective_interest_rate := round6 r.effective_interest_rate
    interest_expense := round2 r.interest_expense
    principal_payment := round2 r.principal_payment
    debt_service := round2 r.debt_service
    capitalized_interest := round2 r.capitalized_interest
    loan_balance := round2 r.loan_balance
    loan_payoff := round2 r.loan_payoff
    unleveraged_cash_flow := round2 r.unleveraged_cash_flow
    leveraged_cash_flow := round2 r.leveraged_cash_flow }

/-- generate_cash_flows: the monthly projection series, rounded as appended. -/
noncomputable def generate_cash_flows (a : Args) : List FlowRecord :=
  (cashFlowListRaw a).map roundFlowRecord

/-- One row of annualize_cash_flows. -/
structure AnnualRecord where
  year : ℕ
  potential_revenue : ℝ
  effective_revenue : ℝ
  total_expenses : ℝ
  noi : ℝ
  debt_service : ℝ
  unleveraged_cash_flow : ℝ
  leveraged_cash_flow : ℝ

def AnnualRecord.zero (year : ℕ) : AnnualRecord := ⟨year, 0, 0, 0, 0, 0, 0, 0⟩

noncomputable def AnnualRecord.addFlow (t : AnnualRecord) (cf : FlowRecord) : AnnualRecord :=
  { t with
    potential_revenue := t.potential_revenue + cf.potential_revenue
    effective_revenue := t.effective_revenue + cf.effective_revenue
    total_expenses := t.total_expenses + cf.total_expenses
    noi := t.noi + cf.noi
    debt_service := t.debt_service + cf.debt_service
    unleveraged_cash_flow := t.unleveraged_cash_flow + cf.unleveraged_cash_flow
    leveraged_cash_flow := t.leveraged_cash_flow + cf.leveraged_cash_flow }

noncomputable def annualizeGo : List FlowRecord → ℕ → AnnualRecord → List AnnualRecord
  | [], _, tot => [tot]
  | cf :: rest, current_year, tot =>
    let cf_year := cf.period / 12 + 1
    if cf_year ≠ current_year then
      tot :: annualizeGo rest cf_year ((AnnualRecord.zero cf_year).addFlow cf)
    else annualizeGo rest current_year (tot.addFlow cf)

noncomputable def roundAnnual (t : AnnualRecord) : AnnualRecord :=
  { t with
    potential_revenue := round2 t.potential_revenue
    effective_revenue := round2 t.effective_revenue
    total_expenses := round2 t.total_expenses
    noi := round2 t.noi
    debt_service := round2 t.debt_service
    unleveraged_cash_flow := round2 t.unleveraged_cash_flow
    leveraged_cash_flow := round2 t.leveraged_cash_flow }

/-- annualize_cash_flows: 12-month bucket sums of selected fields. -/
noncomputable def annualize_cash_flows (monthly_cash_flows : List FlowRecord) :
    List AnnualRecord :=
  (annualizeGo monthly_cash_flows 1 (AnnualRecord.zero 1)).map roundAnnual

/-! # app/calculations/waterfall.py -/

/-- WaterfallTier (waterfall.py). -/
structure WaterfallTier where
  name : String
  pref_return : ℚ
  lp_split : ℚ
  gp_split : ℚ
  gp_promote : ℚ
deriving DecidableEq

def DEFAULT_WATERFALL_TIERS : List WaterfallTier :=
  [⟨"Hurdle I", 5 / 100, 90 / 100, 10 / 100, 0⟩,
   ⟨"Hurdle II", 5 / 100, 75 / 100, 833 / 10000, 1667 / 10000⟩,
   ⟨"Hurdle III", 5 / 100, 75 / 100, 833 / 10000, 1667 / 10000⟩]

def DEFAULT_FINAL_SPLIT : WaterfallTier :=
  ⟨"Final Split", 0, 75 / 100, 833 / 10000, 1667 / 10000⟩

/-- calculate_monthly_pref_rate: simple rate/12 when compounding monthly is
requested, else the compound equivalent (1 + annual)^(1/12) - 1. -/
noncomputable def calculate_monthly_pref_rate (annual_rate : ℚ)
    (compound_monthly : Bool) : ℝ :=
  if compound_monthly then (annual_rate : ℝ) / 12
  else (1 + (annual_rate : ℝ)) ^ ((1 : ℝ) / 12) - 1

/-- The per-tier accrued-pref balances, keyed by tier name as in the source
dict; names not in the tier list keep the initial zero pair. -/
def TierBalances : Type := String → ℝ × ℝ

/-- The accrual phase at the top of each waterfall period: the tier named
Hurdle I accrues on the original equity amounts, every other tier accrues on
its own running balance. -/
noncomputable def accrueTierBalances (tiers : List WaterfallTier)
    (compound_monthly : Bool) (lp_equity gp_equity : ℝ) (bal : TierBalances) :
    TierBalances :=
  tiers.foldl
    (fun b tier =>
      let monthly_rate := calculate_monthly_pref_rate tier.pref_return compound_monthly
      let cur := b tier.name
      if tier.name = "Hurdle I" then
        Function.update b tier.name
          (cur.1 + lp_equity * monthly_rate, cur.2 + gp_equity * monthly_rate)
      else
        Function.update b tier.name
          (cur.1 + cur.1 * monthly_rate, cur.2 + cur.2 * monthly_rate)) bal

/-- The state of the hurdle-tier distribution loop: remaining cash, tier
balances, running pref and promote totals, and the break flag of the source
loop (remaining exhausted). -/
structure TierLoopState where
  remaining : ℝ
  bal : TierBalances
  lp_pref_total : ℝ
  gp_pref_total : ℝ
  gp_promote_total : ℝ
  stopped : Bool

/-- One iteration of the hurdle-tier loop (STEP 2 of the source). -/
noncomputable def tierStep (tier : WaterfallTier) (s : TierLoopState) : TierLoopState :=
  if s.stopped then s
  else if s.remaining ≤ 0 then { s with stopped := true }
  else
    let lp_pref_accrued := (s.bal tier.name).1
    let gp_pref_accrued := (s.bal tier.name).2
    if lp_pref_accrued + gp_pref_accrued > 0 then
      let lp_available := s.remaining * (tier.lp_split : ℝ)
      let gp_available := s.remaining * (tier.gp_split : ℝ)
      let lp_pref_payment := min lp_pref_accrued lp_available
      let gp_pref_payment := min gp_pref_accrued gp_available
      let bal2 := Function.update s.bal tier.name
        (lp_pref_accrued - lp_pref_payment, gp_pref_accrued - gp_pref_payment)
      let pref_paid := lp_pref_payment + gp_pref_payment
      let remaining2 := s.remaining - pref_paid
      let promote_payment :=
        if (tier.gp_promote : ℝ) > 0 ∧ pref_paid > 0 then
          min remaining2
            (pref_paid * (tier.gp_promote : ℝ) / ((tier.lp_split : ℝ) + (tier.gp_split : ℝ)))
        else 0
      { remaining := remaining2 - promote_payment
        bal := bal2
        lp_pref_total := s.lp_pref_total + lp_pref_payment
        gp_pref_total := s.gp_pref_total + gp_pref_payment
        gp_promote_total := s.gp_promote_total + promote_payment
        stopped := false }
    else s

/-- The waterfall state carried across periods. -/
structure WState where
  lp_capital_unreturned : ℝ
  gp_capital_unreturned : ℝ
  balances : TierBalances

/-- One output row of calculate_waterfall_distributions (the per-tier debug
dict of the source is not modelled). -/
structure WRecord where
  period : ℕ
  date : Option Date
  cash_flow : ℝ
  lp_capital_return : ℝ
  gp_capital_return : ℝ
  lp_preferred_return : ℝ
  gp_preferred_return : ℝ
  lp_profit_share : ℝ
  gp_profit_share : ℝ
  gp_promote : ℝ
  total_to_lp : ℝ
  total_to_gp : ℝ
  lp_capital_unreturned : ℝ
  gp_capital_unreturned : ℝ

/-- One waterfall period: accrue preferred return (after month 0), then if the
cash flow is positive return capital pro-rata, pay each tier in order, and
split the residual per the final tier. -/
noncomputable def waterfallStep (tiers : List WaterfallTier)
    (final_split : WaterfallTier) (compound_monthly : Bool)
    (lp_share : ℚ) (lp_equity gp_equity : ℝ) (cash_flow : ℝ) (i : ℕ)
    (date : Option Date) (st : WState) : WRecord × WState :=
  let bal1 :=
    if i > 0 then
      accrueTierBalances tiers compound_monthly lp_equity gp_equity st.balances
    else st.balances
  if cash_flow > 0 then
    let total_unreturned := st.lp_capital_unreturned + st.gp_capital_unreturned
    let roc :=
      if total_unreturned > 0 then
        let capital_payment := min cash_flow total_unreturned
        let lp_pct :=
          if total_unreturned > 0 then st.lp_capital_unreturned / total_unreturned
          else (lp_share : ℝ)
        let lp_capital_return := capital_payment * lp_pct
        let gp_capital_return := capital_payment * (1 - lp_pct)
        (lp_capital_return, gp_capital_return,
          st.lp_capital_unreturned - lp_capital_return,
          st.gp_capital_unreturned - gp_capital_return,
          cash_flow - capital_payment)
      else (0, 0, st.lp_capital_unreturned, st.gp_capital_unreturned, cash_flow)
    let ts := tiers.foldl (fun s tier => tierStep tier s)
      { remaining := roc.2.2.2.2, bal := bal1, lp_pref_total := 0,
        gp_pref_total := 0, gp_promote_total := 0, stopped := false }
    let finals :=
      if ts.remaining > 0 then
        (ts.remaining * (final_split.lp_split : ℝ),
          ts.remaining * (final_split.gp_split : ℝ),
          ts.remaining * (final_split.gp_promote : ℝ))
      else (0, 0, 0)
    let gp_promote_all := ts.gp_promote_total + finals.2.2
    let total_to_lp := roc.1 + ts.lp_pref_total + finals.1
    let total_to_gp := roc.2.1 + ts.gp_pref_total + finals.2.1 + gp_promote_all
    ({ period := i
       date := date
       cash_flow := cash_flow
       lp_capital_return := roc.1
       gp_capital_return := roc.2.1
       lp_preferred_return := ts.lp_pref_total
       gp_preferred_return := ts.gp_pref_total
       lp_profit_share := finals.1
       gp_profit_share := finals.2.1
       gp_promote := gp_promote_all
       total_to_lp := total_to_lp
       total_to_gp := total_to_gp
       lp_capital_unreturned := roc.2.2.1
       gp_capital_unreturned := roc.2.2.2.1 },
     { lp_capital_unreturned := roc.2.2.1
       gp_capital_unreturned := roc.2.2.2.1
       balances := ts.bal })
  else
    ({ period := i
       date := date
       cash_flow := cash_flow
       lp_capital_return := 0
       gp_capital_return := 0
       lp_preferred_return := 0
       gp_preferred_return := 0
       lp_profit_share := 0
       gp_profit_share := 0
       gp_promote := 0
       total_to_lp := 0
       total_to_gp := 0
       lp_capital_unreturned := st.lp_capital_unreturned
       gp_capital_unreturned := st.gp_capital_unreturned },
     { lp_capital_unreturned := st.lp_capital_unreturned
       gp_capital_unreturned := st.gp_capital_unreturned
       balances := bal1 })

/-- The period loop of calculate_waterfall_distributions. -/
noncomputable def waterfallGo (tiers : List WaterfallTier)
    (final_split : WaterfallTier) (compound_monthly : Bool)
    (lp_share : ℚ) (lp_equity gp_equity : ℝ) (dates : List Date) :
    List ℝ → ℕ → WState → List WRecord
  | [], _, _ => []
  | cash_flow :: rest, i, st =>
    let rs := waterfallStep tiers final_split compound_monthly lp_share
      lp_equity gp_equity cash_flow i (dates.get? i) st
    rs.1 :: waterfallGo tiers final_split compound_monthly lp_share
      lp_equity gp_equity dates rest (i + 1) rs.2

/-- The unrounded distribution rows produced by the waterfall engine. -/
noncomputable def waterfallRecordsRaw (leveraged_cash_flows : List ℝ)
    (dates : List Date) (total_equity : ℚ) (lp_share gp_share : ℚ)
    (tiers : List WaterfallTier) (final_split : WaterfallTier)
    (compound_monthly : Bool) : List WRecord :=
  let lp_equity : ℝ := ((total_equity * lp_share : ℚ) : ℝ)
  let gp_equity : ℝ := ((total_equity * gp_share : ℚ) : ℝ)
  waterfallGo tiers final_split compound_monthly lp_share lp_equity gp_equity
    dates leveraged_cash_flows 0
    ⟨lp_equity, gp_equity, fun _ => (0, 0)⟩

/-- The rounding (and clamping of reported unreturned capital at zero) the
source applies when appending each distribution dict. -/
noncomputable def roundWRecord (r : WRecord) : WRecord :=
  { r with
    cash_flow := round2 r.cash_flow
    lp_capital_return := round2 r.lp_capital_return
    gp_capital_return := round2 r.gp_capital_return
    lp_preferred_return := round2 r.lp_preferred_return
    gp_preferred_return := round2 r.gp_preferred_return
    lp_profit_share := round2 r.lp_profit_share
    gp_profit_share := round2 r.gp_profit_share
    gp_promote := round2 r.gp_promote
    total_to_lp := round2 r.total_to_lp
    total_to_gp := round2 r.total_to_gp
    lp_capital_unreturned := round2 (max 0 r.lp_capital_unreturned)
    gp_capital_unreturned := round2 (max 0 r.gp_capital_unreturned) }

/-- calculate_waterfall_distributions.  The source defaults
(lp_share 0.90, gp_share 0.10, compound_monthly False, tiers and final split
None) are spelled out at call sites; a None final_split falls back to the
default and a dict final_split arrives here already converted with name
Final Split and zero pref, as the source conversion builds it. -/
noncomputable def calculate_waterfall_distributions
    (leveraged_cash_flows : List ℝ) (dates : List Date) (total_equity : ℚ)
    (lp_share gp_share : ℚ) (tiers : Option (List WaterfallTier))
    (final_split : Option WaterfallTier) (compound_monthly : Bool)
    (hurdles : Option (List WaterfallTier)) : List WRecord :=
  let tiers2 :=
    match tiers, hurdles with
    | none, some h => some h
    | t, _ => t
  let tiers3 := tiers2.getD DEFAULT_WATERFALL_TIERS
  let final2 := final_split.getD DEFAULT_FINAL_SPLIT
  (waterfallRecordsRaw leveraged_cash_flows dates total_equity lp_share gp_share
    tiers3 final2 compound_monthly).map roundWRecord

/-- calculate_simple_waterfall: single-tier legacy wrapper (its tier is named
Hurdle I). -/
noncomputable def calculate_simple_waterfall (leveraged_cash_flows : List ℝ)
    (dates : List Date) (total_equity : ℚ) (lp_share gp_share : ℚ)
    (pref_return : ℚ) (compound_monthly : Bool) : List WRecord :=
  let simple_tier : WaterfallTier :=
    ⟨"Hurdle I", pref_return, lp_share, gp_share, 0⟩
  calculate_waterfall_distributions leveraged_cash_flows dates total_equity
    lp_share gp_share (some [simple_tier]) none compound_monthly none

/-- extract_lp_cash_flows: prefix the LP investment to period 0. -/
noncomputable def extract_lp_cash_flows (distributions : List WRecord)
    (lp_equity : ℝ) : List ℝ :=
  distributions.enum.map
    (fun id => if id.1 = 0 then -lp_equity + id.2.total_to_lp else id.2.total_to_lp)

/-- extract_gp_cash_flows: prefix the GP investment to period 0. -/
noncomputable def extract_gp_cash_flows (distributions : List WRecord)
    (gp_equity : ℝ) : List ℝ :=
  distributions.enum.map
    (fun id => if id.1 = 0 then -gp_equity + id.2.total_to_gp else id.2.total_to_gp)

/-! # app/api/calculations.py : the calculate_cashflows endpoint

The endpoint composes the three engine modules.  Python reaches the
functions of the irr module through the imported module object; the record
IrrModule plays that role, so that a run of the orchestration is a function
of the module record it is handed.  irrModule is the record holding the real
solver functions; the endpoint is the orchestration applied to it. -/

structure IrrModule where
  xirr : List ℝ → List Date → Except String ℝ
  multiple : List ℝ → Except String ℝ
  profit : List ℝ → ℝ

/-- The actual irr module: the functions of app/calculations/irr.py, with the
default guess of calculate_xirr supplied. -/
noncomputable def irrModule : IrrModule :=
  { xirr := fun cfs dates => calculate_xirr cfs dates ((DEFAULT_GUESS : ℚ) : ℝ)
    multiple := calculate_multiple
    profit := calculate_profit }

/-- CashFlowInput (pydantic model), with its declared defaults. -/
structure CFInput where
  acquisition_date : Date
  hold_period_months : ℕ := 120
  stabilization_month : ℕ := 77
  purchase_price : ℚ
  closing_costs : ℚ
  total_sf : ℚ
  in_place_rent_psf : ℚ
  market_rent_psf : ℚ
  vacancy_rate : ℚ := 0
  collection_loss : ℚ := 0
  tenants : Option (List Tenant) := none
  fixed_opex_psf : ℚ := 36
  variable_opex_psf : ℚ := 0
  management_fee_percent : ℚ := 4 / 100
  property_tax_amount : ℚ := 0
  capex_reserve_psf : ℚ := 5
  rent_growth : ℚ := 25 / 1000
  expense_growth : ℚ := 25 / 1000
  exit_cap_rate : ℚ := 5 / 100
  sales_cost_percent : ℚ := 1 / 100
  loan_amount : Option ℚ := none
  interest_rate : ℚ := 5 / 100
  io_months : ℕ := 120
  amortization_years : ℕ := 30
  nnn_lease : Bool := true
  use_actual_365 : Bool := true
  lp_share : ℚ := 90 / 100
  gp_share : ℚ := 10 / 100
  pref_return : ℚ := 5 / 100
  compound_monthly : Bool := false
  use_multi_hurdle : Bool := true
  hurdles : Option (List WaterfallTier) := none
  final_lp_split : ℚ := 75 / 100
  final_gp_split : ℚ := 833 / 10000
  final_gp_promote : ℚ := 1667 / 10000

/-- ReturnMetrics (response model). -/
structure ReturnMetrics where
  unleveraged_irr : ℝ
  unleveraged_multiple : ℝ
  unleveraged_profit : ℝ
  leveraged_irr : Option ℝ
  leveraged_multiple : Option ℝ
  leveraged_profit : Option ℝ
  lp_irr : Option ℝ
  lp_multiple : Option ℝ
  gp_irr : Option ℝ
  gp_multiple : Option ℝ

/-- CashFlowResponse (response model). -/
structure CashFlowResponse where
  metrics : ReturnMetrics
  annual_cashflows : List AnnualRecord
  monthly_cashflows : List FlowRecord

/-- The Args record the endpoint builds for generate_cash_flows: exactly the
keyword arguments of the call at the heart of the endpoint; every parameter
the call leaves out keeps the generate_cash_flows default. -/
def argsOfInput (inputs : CFInput) : Args :=
  { acquisition_date := inputs.acquisition_date
    hold_period_months := inputs.hold_period_months
    purchase_price := inputs.purchase_price
    closing_costs := inputs.closing_costs
    total_sf := inputs.total_sf
    in_place_rent_psf := inputs.in_place_rent_psf
    market_rent_psf := inputs.market_rent_psf
    rent_growth := inputs.rent_growth
    vacancy_rate := inputs.vacancy_rate
    fixed_opex_psf := inputs.fixed_opex_psf
    management_fee_percent := inputs.management_fee_percent
    property_tax_amount := inputs.property_tax_amount
    capex_reserve_psf := inputs.capex_reserve_psf
    expense_growth := inputs.expense_growth
    exit_cap_rate := inputs.exit_cap_rate
    sales_cost_percent := inputs.sales_cost_percent
    loan_amount := inputs.loan_amount
    interest_rate := inputs.interest_rate
    io_months := inputs.io_months
    amortization_years := inputs.amortization_years
    tenants := inputs.tenants.getD []
    nnn_lease := inputs.nnn_lease
    use_actual_365 := inputs.use_actual_365 }

/-- The monthly date axis the endpoint builds. -/
def datesOfInput (inputs : CFInput) : List Date :=
  generate_monthly_dates inputs.acquisition_date inputs.hold_period_months

/-- The unleveraged cash-flow series extracted from the monthly records. -/
noncomputable def unlevSeries (inputs : CFInput) : List ℝ :=
  (generate_cash_flows (argsOfInput inputs)).map FlowRecord.unleveraged_cash_flow

/-- The leveraged cash-flow series extracted from the monthly records. -/
noncomputable def levSeries (inputs : CFInput) : List ℝ :=
  (generate_cash_flows (argsOfInput inputs)).map FlowRecord.leveraged_cash_flow

/-- The series the waterfall consumes: leveraged with debt, else unleveraged. -/
noncomputable def projectCF (inputs : CFInput) : List ℝ :=
  if inputs.loan_amount.getD 0 > 0 then levSeries inputs else unlevSeries inputs

/-- Total equity in thousands as the endpoint computes it. -/
def totalEquityOf (inputs : CFInput) : ℚ :=
  inputs.purchase_price + inputs.closing_costs - inputs.loan_amount.getD 0

/-- The leveraged-metric block of the endpoint: a try whose body assigns the
three metrics in order, so an exception partway keeps the earlier
assignments and leaves the rest None. -/
noncomputable def leveragedMetrics (irrM : IrrModule) (inputs : CFInput) :
    Option ℝ × Option ℝ × Option ℝ :=
  if inputs.loan_amount.getD 0 > 0 then
    match irrM.xirr (levSeries inputs) (datesOfInput inputs) with
    | .error _ => (none, none, none)
    | .ok r =>
      match irrM.multiple (levSeries inputs) with
      | .error _ => (some r, none, none)
      | .ok m => (some r, some m, some (irrM.profit (levSeries inputs)))
  else (none, none, none)

/-- The waterfall block of the endpoint: builds the hurdle configuration,
runs the waterfall on the project series, and computes LP and GP metrics,
each pair in its own inner try.  Nothing else in the block can raise, so the
outer try of the source adds no further cases. -/
noncomputable def waterfallMetrics (irrM : IrrModule) (inputs : CFInput) :
    Option ℝ × Option ℝ × Option ℝ × Option ℝ :=
  if totalEquityOf inputs > 0 then
    let hurdle_list : Option (List WaterfallTier) :=
      if inputs.use_multi_hurdle then inputs.hurdles
      else some [⟨"Single Hurdle", inputs.pref_return, inputs.lp_share, inputs.gp_share, 0⟩]
    let final_split : WaterfallTier :=
      if inputs.use_multi_hurdle then
        ⟨"Final Split", 0, inputs.final_lp_split, inputs.final_gp_split,
          inputs.final_gp_promote⟩
      else ⟨"Final Split", 0, inputs.lp_share, inputs.gp_share, 0⟩
    let distributions := calculate_waterfall_distributions (projectCF inputs)
      (datesOfInput inputs) (totalEquityOf inputs) inputs.lp_share inputs.gp_share
      none (some final_split) inputs.compound_monthly hurdle_list
    let lp_equity := totalEquityOf inputs * inputs.lp_share
    let gp_equity := totalEquityOf inputs * inputs.gp_share
    let lp_cf := extract_lp_cash_flows distributions (lp_equity : ℝ)
    let gp_cf := extract_gp_cash_flows distributions (gp_equity : ℝ)
    let lp_pair :=
      match irrM.xirr lp_cf (datesOfInput inputs) with
      | .error _ => (none, none)
      | .ok r =>
        match irrM.multiple lp_cf with
        | .error _ => (some r, none)
        | .ok m => (some r, some m)
    let gp_pair :=
      match irrM.xirr gp_cf (datesOfInput inputs) with
      | .error _ => (none, none)
      | .ok r =>
        match irrM.multiple gp_cf with
        | .error _ => (some r, none)
        | .ok m => (some r, some m)
    (lp_pair.1, lp_pair.2, gp_pair.1, gp_pair.2)
  else (none, none, none, none)

/-- The calculate_cashflows endpoint.  The unleveraged metrics are computed
outside any try, so their failures propagate; every other metric failure is
caught and surfaces as None in the response. -/
noncomputable def calculate_cashflows (irrM : IrrModule) (inputs : CFInput) :
    Except String CashFlowResponse := do
  let monthly_cfs := generate_cash_flows (argsOfInput inputs)
  let unleveraged_irr_val ← irrM.xirr (unlevSeries inputs) (datesOfInput inputs)
  let unleveraged_multiple ← irrM.multiple (unlevSeries inputs)
  let unleveraged_profit := irrM.profit (unlevSeries inputs)
  let lev := leveragedMetrics irrM inputs
  let wf := waterfallMetrics irrM inputs
  let annual_cfs := annualize_cash_flows monthly_cfs
  pure
    { metrics :=
        { unleveraged_irr := unleveraged_irr_val
          unleveraged_multiple := unleveraged_multiple
          unleveraged_profit := unleveraged_profit
          leveraged_irr := lev.1
          leveraged_multiple := lev.2.1
          leveraged_profit := lev.2.2
          lp_irr := wf.1
          lp_multiple := wf.2.1
          gp_irr := wf.2.2.1
          gp_multiple := wf.2.2.2 }
      annual_cashflows := annual_cfs
      monthly_cashflows := monthly_cfs }

/-- A stub IRR module for exercising the endpoint orchestration on concrete
inputs: XIRR succeeds (with rate 1) exactly when the first cash flow of the
series is below -50, the multiple is always 0, and the profit is always 0. -/
noncomputable def toyIrr : IrrModule where
  xirr := fun cfs _ =>
    match cfs.head? with
    | some c => if c < -50 then Except.ok 1 else Except.error "fail"
    | none => Except.error "fail"
  multiple := fun _ => Except.ok 0
  profit := fun _ => 0

/-- A small projection input: one-month hold, purchase price 100 (in $000s),
no closing costs, a loan of 60, zero square footage and zero rates, so the
period-0 unleveraged cash flow is -100 and the leveraged one is -40. -/
def toyCFInput : CFInput where
  acquisition_date := ⟨2026, 1, 1⟩
  hold_period_months := 1
  purchase_price := 100
  closing_costs := 0
  total_sf := 0
  in_place_rent_psf := 0
  market_rent_psf := 0
  vacancy_rate := 0
  fixed_opex_psf := 0
  variable_opex_psf := 0
  management_fee_percent := 0
  property_tax_amount := 0
  capex_reserve_psf := 0
  rent_growth := 0
  expense_growth := 0
  exit_cap_rate := 1 / 20
  sales_cost_percent := 0
  loan_amount := some 60
  interest_rate := 0
  use_actual_365 := false

/-- The Args record toyCFInput induces through the endpoint call. -/
def toyArgs : Args where
  acquisition_date := ⟨2026, 1, 1⟩
  hold_period_months := 1
  purchase_price := 100
  closing_costs := 0
  total_sf := 0
  in_place_rent_psf := 0
  market_rent_psf := 0
  rent_growth := 0
  vacancy_rate := 0
  fixed_opex_psf := 0
  management_fee_percent := 0
  property_tax_amount := 0
  capex_reserve_psf := 0
  expense_growth := 0
  exit_cap_rate := 1 / 20
  sales_cost_percent := 0
  loan_amount := some 60
  interest_rate := 0
  io_months := 120
  amortization_years := 30
  tenants := []
  nnn_lease := true
  use_actual_365 := false

/-! # Theorems -/

/-! ## C4: the two escalation conventions -/

theorem bernoulli_strict_q (x : ℚ) (hx : 0 < x) : 1 + 12 * x < (1 + x) ^ 12 := by
  have h6 : 1 + (6 : ℕ) * x ≤ (1 + x) ^ 6 :=
    one_add_mul_le_pow (by linarith) 6
  have h12 : (1 + x) ^ 12 = ((1 + x) ^ 6) ^ 2 := by ring
  have hpos : (0 : ℚ) ≤ 1 + 6 * x := by linarith
  push_cast at h6
  nlinarith [sq_nonneg x, sq_nonneg (1 + 6 * x)]

/-- C4: the rent-escalation factor is (1 + rate/12)^period and the
expense-escalation factor is (1 + rate)^(period/12); for every annual rate
r > 0, rent factor at period 12 > expense factor at period 12 > 1, and the
expense factor at period 12 equals 1 + r exactly. -/
theorem escalation_conventions (r : ℚ) (hr : 0 < r) :
    (∀ p : ℕ, calculate_rent_escalation r p = (1 + r / 12) ^ p) ∧
    (∀ p : ℕ, calculate_expense_escalation r p = (1 + (r : ℝ)) ^ ((p : ℝ) / 12)) ∧
    calculate_expense_escalation r 12 = 1 + (r : ℝ) ∧
    (1 : ℝ) < calculate_expense_escalation r 12 ∧
    calculate_expense_escalation r 12 < ((calculate_rent_escalation r 12 : ℚ) : ℝ) := by
  have h12 : calculate_expense_escalation r 12 = 1 + (r : ℝ) := by
    unfold calculate_expense_escalation
    norm_num
  refine ⟨fun p => rfl, fun p => rfl, h12, ?_, ?_⟩
  · rw [h12]
    have : (0 : ℝ) < (r : ℝ) := by exact_mod_cast hr
    linarith
  · rw [h12]
    have key : 1 + 12 * (r / 12) < (1 + r / 12) ^ 12 :=
      bernoulli_strict_q (r / 12) (by positivity)
    have key2 : 1 + r < calculate_rent_escalation r 12 := by
      unfold calculate_rent_escalation
      calc 1 + r = 1 + 12 * (r / 12) := by ring
        _ < (1 + r / 12) ^ 12 := key
    exact_mod_cast key2

theorem escalation_conventions_witness :
    (0 : ℚ) < 1 ∧
      (calculate_expense_escalation 1 12 = 1 + ((1 : ℚ) : ℝ) ∧
        calculate_expense_escalation 1 12 <
          ((calculate_rent_escalation 1 12 : ℚ) : ℝ)) := by
  have h := escalation_conventions 1 (by norm_num)
  exact ⟨by norm_num, h.2.2.1, h.2.2.2.2⟩

/-! ## C7: rent regimes after lease expiry -/

/-- C7: after lease expiry, with rollover costs applied the tenant produces
(0, 0) during the TI-buildout window, (escalated market rent, minus the same
amount) during the free-rent window that follows, and (escalated market rent,
0) after both; with the flag off, escalated market rent with no deduction
from the first post-expiry period onward. -/
theorem tenant_rent_post_expiry (t : Tenant) (p : ℕ) (g : ℚ)
    (hpost : t.lease_end_month < p) :
    (t.apply_rollover_costs = true →
        p < t.lease_end_month + 1 + t.ti_buildout_months →
        calculate_tenant_rent_detailed t p g = (0, 0)) ∧
    (t.apply_rollover_costs = true →
        t.lease_end_month + 1 + t.ti_buildout_months ≤ p →
        p < t.lease_end_month + 1 + t.ti_buildout_months + t.free_rent_months →
        calculate_tenant_rent_detailed t p g =
          (t.rsf * t.market_rent_psf * calculate_rent_escalation g p / 12 / 1000,
           -(t.rsf * t.market_rent_psf * calculate_rent_escalation g p / 12 / 1000))) ∧
    (t.apply_rollover_costs = true →
        t.lease_end_month + 1 + t.ti_buildout_months + t.free_rent_months ≤ p →
        calculate_tenant_rent_detailed t p g =
          (t.rsf * t.market_rent_psf * calculate_rent_escalation g p / 12 / 1000, 0)) ∧
    (t.apply_rollover_costs = false →
        calculate_tenant_rent_detailed t p g =
          (t.rsf * t.market_rent_psf * calculate_rent_escalation g p / 12 / 1000, 0)) := by
  refine ⟨?_, ?_, ?_, ?_⟩
  · intro hflag hti
    simp only [calculate_tenant_rent_detailed, hflag]
    split_ifs <;> first | rfl | omega
  · intro hflag hfs hfe
    simp only [calculate_tenant_rent_detailed, hflag]
    split_ifs <;> first | rfl | omega
  · intro hflag hafter
    simp only [calculate_tenant_rent_detailed, hflag]
    split_ifs <;> first | rfl | omega
  · intro hflag
    simp only [calculate_tenant_rent_detailed, hflag, Bool.false_eq_true, if_false]
    split_ifs <;> first | rfl | omega

theorem tenant_rent_post_expiry_witness :
    let t : Tenant :=
      { name := "T", rsf := 1200, in_place_rent_psf := 10, market_rent_psf := 20,
        lease_end_month := 5, apply_rollover_costs := true, free_rent_months := 2,
        free_rent_start_month := 0, ti_buildout_months := 3 }
    (t.apply_rollover_costs = true →
        7 < t.lease_end_month + 1 + t.ti_buildout_months →
        calculate_tenant_rent_detailed t 7 0 = (0, 0)) ∧
    (t.apply_rollover_costs = true →
        t.lease_end_month + 1 + t.ti_buildout_months ≤ 7 →
        7 < t.lease_end_month + 1 + t.ti_buildout_months + t.free_rent_months →
        calculate_tenant_rent_detailed t 7 0 =
          (t.rsf * t.market_rent_psf * calculate_rent_escalation 0 7 / 12 / 1000,
           -(t.rsf * t.market_rent_psf * calculate_rent_escalation 0 7 / 12 / 1000))) ∧
    (t.apply_rollover_costs = true →
        t.lease_end_month + 1 + t.ti_buildout_months + t.free_rent_months ≤ 7 →
        calculate_tenant_rent_detailed t 7 0 =
          (t.rsf * t.market_rent_psf * calculate_rent_escalation 0 7 / 12 / 1000, 0)) ∧
    (t.apply_rollover_costs = false →
        calculate_tenant_rent_detailed t 7 0 =
          (t.rsf * t.market_rent_psf * calculate_rent_escalation 0 7 / 12 / 1000, 0)) :=
  tenant_rent_post_expiry _ 7 0 (by norm_num)

/-! ## C8: calculate_irr error handling -/

theorem irrLoop_ok_shape (cfs : List ℚ) :
    ∀ fuel r x, irrLoop cfs fuel r = .ok x →
      ∃ rp, TOLERANCE ≤ |npv_derivative cfs rp| ∧
        x = rp - calculate_npv cfs rp / npv_derivative cfs rp ∧
        |x - rp| < TOLERANCE := by
  intro fuel
  induction fuel with
  | zero => intro r x h; simp [irrLoop] at h
  | succ n ih =>
    intro r x h
    rw [show irrLoop cfs (n + 1) r =
        (if |npv_derivative cfs r| < TOLERANCE then
          (Except.error "IRR calculation failed: derivative too small")
        else if |(r - calculate_npv cfs r / npv_derivative cfs r) - r| < TOLERANCE then
          Except.ok (r - calculate_npv cfs r / npv_derivative cfs r)
        else irrLoop cfs n (r - calculate_npv cfs r / npv_derivative cfs r)) from rfl] at h
    by_cases h1 : |npv_derivative cfs r| < TOLERANCE
    · rw [if_pos h1] at h
      exact absurd h (by simp)
    · rw [if_neg h1] at h
      by_cases h2 : |(r - calculate_npv cfs r / npv_derivative cfs r) - r| < TOLERANCE
      · rw [if_pos h2] at h
        have hx : r - calculate_npv cfs r / npv_derivative cfs r = x := Except.ok.inj h
        exact ⟨r, not_lt.mp h1, hx.symm, by rw [← hx]; exact h2⟩
      · rw [if_neg h2] at h
        exact ih _ _ h

theorem irrLoop_outcomes (cfs : List ℚ) :
    ∀ fuel r, (∃ x, irrLoop cfs fuel r = .ok x) ∨
      irrLoop cfs fuel r = .error "IRR calculation failed: derivative too small" ∨
      irrLoop cfs fuel r = .error "IRR calculation did not converge" := by
  intro fuel
  induction fuel with
  | zero => intro r; right; right; rfl
  | succ n ih =>
    intro r
    simp only [irrLoop]
    split_ifs with h1 h2
    · right; left; rfl
    · left; exact ⟨_, rfl⟩
    · exact ih _

/-- C8: calculate_irr rejects short or all-same-sign series immediately with
the invalid-input errors; any successful result is a converged Newton rate
(one whose step had derivative at least the tolerance and moved less than the
tolerance); and every outcome is either a success or one of the four errors
(invalid input, derivative underflow, iteration cap). -/
theorem calculate_irr_error_handling (cfs : List ℚ) (g : ℚ) :
    (cfs.length < 2 → calculate_irr cfs g = .error "At least 2 cash flows required") ∧
    (2 ≤ cfs.length → ((∀ cf ∈ cfs, cf ≤ 0) ∨ (∀ cf ∈ cfs, 0 ≤ cf)) →
        calculate_irr cfs g =
          .error "Cash flows must contain both positive and negative values") ∧
    (∀ x, calculate_irr cfs g = .ok x →
        ∃ rp, TOLERANCE ≤ |npv_derivative cfs rp| ∧
          x = rp - calculate_npv cfs rp / npv_derivative cfs rp ∧
          |x - rp| < TOLERANCE) ∧
    ((∃ x, calculate_irr cfs g = .ok x) ∨
      calculate_irr cfs g = .error "At least 2 cash flows required" ∨
      calculate_irr cfs g = .error "Cash flows must contain both positive and negative values" ∨
      calculate_irr cfs g = .error "IRR calculation failed: derivative too small" ∨
      calculate_irr cfs g = .error "IRR calculation did not converge") := by
  refine ⟨?_, ?_, ?_, ?_⟩
  · intro h
    simp [calculate_irr, h]
  · intro hlen hsign
    have hguard : (¬cfs.any (fun cf => cf > 0) = true) ∨ (¬cfs.any (fun cf => cf < 0) = true) := by
      rcases hsign with hs | hs
      · left
        intro hany
        rcases List.any_eq_true.mp hany with ⟨cf, hmem, hcf⟩
        simp only [decide_eq_true_eq] at hcf
        exact absurd hcf (not_lt.mpr (hs cf hmem))
      · right
        intro hany
        rcases List.any_eq_true.mp hany with ⟨cf, hmem, hcf⟩
        simp only [decide_eq_true_eq] at hcf
        exact absurd hcf (not_lt.mpr (hs cf hmem))
    have he : calculate_irr cfs g =
        if ¬cfs.any (fun cf => cf > 0) = true ∨ ¬cfs.any (fun cf => cf < 0) = true then
          .error "Cash flows must contain both positive and negative values"
        else irrLoop cfs MAX_ITERATIONS g := by
      rw [calculate_irr, if_neg (by omega)]
    rw [he, if_pos hguard]
  · intro x h
    simp only [calculate_irr] at h
    split_ifs at h
    · exact irrLoop_ok_shape cfs MAX_ITERATIONS g x h
  · simp only [calculate_irr]
    split_ifs with h1 h2
    · right; left; rfl
    · right; right; left; rfl
    · rcases irrLoop_outcomes cfs MAX_ITERATIONS g with h | h | h
      · exact Or.inl h
      · right; right; right; left; exact h
      · right; right; right; right; exact h

theorem calculate_irr_error_handling_witness :
    (([] : List ℚ).length < 2 →
        calculate_irr [] 0 = .error "At least 2 cash flows required") ∧
    (2 ≤ ([] : List ℚ).length → ((∀ cf ∈ ([] : List ℚ), cf ≤ 0) ∨ (∀ cf ∈ ([] : List ℚ), 0 ≤ cf)) →
        calculate_irr [] 0 =
          .error "Cash flows must contain both positive and negative values") ∧
    (∀ x, calculate_irr [] 0 = .ok x →
        ∃ rp, TOLERANCE ≤ |npv_derivative [] rp| ∧
          x = rp - calculate_npv [] rp / npv_derivative [] rp ∧
          |x - rp| < TOLERANCE) ∧
    ((∃ x, calculate_irr [] 0 = .ok x) ∨
      calculate_irr [] 0 = .error "At least 2 cash flows required" ∨
      calculate_irr [] 0 = .error "Cash flows must contain both positive and negative values" ∨
      calculate_irr [] 0 = .error "IRR calculation failed: derivative too small" ∨
      calculate_irr [] 0 = .error "IRR calculation did not converge") :=
  calculate_irr_error_handling [] 0

/-! ## Evaluation helpers -/

theorem cashFlowGo_succ (a : Args) (i n : ℕ) (st : LoanState) :
    cashFlowGo a i (n + 1) st =
      (cashFlowStep a st i).1 :: cashFlowGo a (i + 1) n (cashFlowStep a st i).2 := rfl

theorem expense_escalation_zero_rate (p : ℕ) : calculate_expense_escalation 0 p = 1 := by
  unfold calculate_expense_escalation
  push_cast
  rw [add_zero, Real.one_rpow]

theorem rent_escalation_zero_rate (p : ℕ) : calculate_rent_escalation 0 p = 1 := by
  unfold calculate_rent_escalation
  norm_num

theorem round2_intCast (n : ℤ) : round2 (n : ℝ) = n := by
  unfold round2
  rw [show ((n : ℝ) * 100) = ((n * 100 : ℤ) : ℝ) by push_cast; ring, round_intCast]
  push_cast
  ring

/-! ## C1: the period-0 record -/

/-- C1 (code bug): at a projection input with a positive month-0 expense
(annual property tax 12, every other revenue and expense input zero, purchase
price 100, closing costs 50), the period-0 record carries acquisition cost
exactly purchase price + closing costs, but its NOI is -1, not 0: the source
zeroes month-0 revenue yet still subtracts month-0 operating expenses, while
the spec and the repository test suite require month-0 NOI to be exactly 0. -/
theorem month0_record_noi_nonzero :
    ((generate_cash_flows
        { acquisition_date := ⟨2026, 1, 1⟩, hold_period_months := 1,
          purchase_price := 100, closing_costs := 50, total_sf := 0,
          in_place_rent_psf := 0, market_rent_psf := 0, rent_growth := 0,
          vacancy_rate := 0, fixed_opex_psf := 0, management_fee_percent := 0,
          property_tax_amount := 12, capex_reserve_psf := 0, expense_growth := 0,
          exit_cap_rate := 1 / 20, sales_cost_percent := 0 }).head?.map
      (fun r => (r.noi, r.acquisition_costs))) = some (-1, 150) ∧
    (-1 : ℝ) ≠ 0 ∧ (150 : ℝ) = 100 + 50 := by
  refine ⟨?_, by norm_num, by norm_num⟩
  have h1 : round2 (-1 : ℝ) = -1 := by
    rw [show (-1 : ℝ) = ((-1 : ℤ) : ℝ) by norm_num, round2_intCast]
  have h2 : round2 (150 : ℝ) = 150 := by
    rw [show (150 : ℝ) = ((150 : ℤ) : ℝ) by norm_num, round2_intCast]
  have hmap : ∀ (r : FlowRecord) (rest : List FlowRecord),
      r.noi = -1 → r.acquisition_costs = 150 →
      ((r :: rest).head?.map (fun q => (q.noi, q.acquisition_costs))) =
        some ((-1 : ℝ), (150 : ℝ)) := by
    intro r rest hn ha
    simp [hn, ha]
  rw [generate_cash_flows, cashFlowListRaw, cashFlowGo_succ, List.map_cons]
  have hnoi :
      (periodData
        { acquisition_date := ⟨2026, 1, 1⟩, hold_period_months := 1,
          purchase_price := 100, closing_costs := 50, total_sf := 0,
          in_place_rent_psf := 0, market_rent_psf := 0, rent_growth := 0,
          vacancy_rate := 0, fixed_opex_psf := 0, management_fee_percent := 0,
          property_tax_amount := 12, capex_reserve_psf := 0, expense_growth := 0,
          exit_cap_rate := 1 / 20, sales_cost_percent := 0 } 0).noi = -1 := by
    simp only [periodData, expense_escalation_zero_rate, rent_escalation_zero_rate]
    norm_num
  refine hmap _ _ ?_ ?_
  · simp only [roundFlowRecord, cashFlowStep]
    rw [hnoi]
    exact h1
  · simp only [roundFlowRecord, cashFlowStep, stepCore]
    rw [if_pos trivial]
    rw [show (((100 : ℚ) + 50 : ℚ) : ℝ) = (150 : ℝ) by norm_num]
    exact h2

/-! ## C6: capitalized interest inside the interest-only window -/

/-- C6: with capitalize_interest enabled, in any period of the interest-only
window whose leveraged cash flow would be negative, exactly
min(interest expense, |shortfall|) is added to the loan balance (and to the
cumulative capitalized-interest total) and added back to the leveraged cash
flow (the exit payoff, if any, is applied afterwards); outside the window, or
when the leveraged cash flow is non-negative, nothing is capitalized and the
loan balance is unchanged by this step. -/
theorem capitalized_interest_window (a : Args) (st : LoanState) (p : ℕ) :
    ((a.capitalize_interest = true ∧ 0 < p ∧ p ≤ a.io_months ∧
        (stepCore a st p).leveraged_pre < 0) →
      ((cashFlowStep a st p).1.capitalized_interest =
          min (stepCore a st p).interest_expense |(stepCore a st p).leveraged_pre| ∧
        (cashFlowStep a st p).2.balance =
          (stepCore a st p).balance_after_debt +
            min (stepCore a st p).interest_expense |(stepCore a st p).leveraged_pre| ∧
        (cashFlowStep a st p).2.total_capitalized_interest =
          st.total_capitalized_interest +
            min (stepCore a st p).interest_expense |(stepCore a st p).leveraged_pre| ∧
        (¬(p = a.hold_period_months ∧ a.loan_amount.getD 0 > 0) →
          (cashFlowStep a st p).1.leveraged_cash_flow =
            (stepCore a st p).leveraged_pre +
              min (stepCore a st p).interest_expense |(stepCore a st p).leveraged_pre|))) ∧
    ((¬(a.capitalize_interest = true ∧ 0 < p ∧ p ≤ a.io_months) ∨
        0 ≤ (stepCore a st p).leveraged_pre) →
      ((cashFlowStep a st p).1.capitalized_interest = 0 ∧
        (cashFlowStep a st p).2.balance = (stepCore a st p).balance_after_debt)) := by
  constructor
  · rintro ⟨hc, hp0, hio, hneg⟩
    have hcond : a.capitalize_interest = true ∧ p > 0 ∧ p ≤ a.io_months ∧
        (stepCore a st p).leveraged_pre < 0 := ⟨hc, hp0, hio, hneg⟩
    simp only [cashFlowStep, if_pos hcond]
    refine ⟨by trivial, by trivial, by trivial, ?_⟩
    intro hnp
    rw [if_neg hnp]
    ring
  · intro hno
    have hcond : ¬(a.capitalize_interest = true ∧ p > 0 ∧ p ≤ a.io_months ∧
        (stepCore a st p).leveraged_pre < 0) := by
      rcases hno with hno | hno
      · exact fun hh => hno ⟨hh.1, hh.2.1, hh.2.2.1⟩
      · exact fun hh => absurd hh.2.2.2 (not_lt.mpr hno)
    simp only [cashFlowStep, if_neg hcond]
    constructor <;> first | trivial | simp

theorem capitalized_interest_window_witness :
    let a : Args :=
      { acquisition_date := ⟨2026, 1, 1⟩, hold_period_months := 2,
        purchase_price := 100, closing_costs := 0, total_sf := 0,
        in_place_rent_psf := 0, market_rent_psf := 0, rent_growth := 0,
        vacancy_rate := 0, fixed_opex_psf := 0, management_fee_percent := 0,
        property_tax_amount := 12, capex_reserve_psf := 0, expense_growth := 0,
        exit_cap_rate := 1 / 20, sales_cost_percent := 0,
        loan_amount := some 100, interest_rate := 12 / 100,
        nnn_lease := false, use_actual_365 := false, capitalize_interest := true }
    (cashFlowStep a ⟨100, 0⟩ 1).1.capitalized_interest =
        min (stepCore a ⟨100, 0⟩ 1).interest_expense
          |(stepCore a ⟨100, 0⟩ 1).leveraged_pre| ∧
      (cashFlowStep a ⟨100, 0⟩ 1).2.balance =
        (stepCore a ⟨100, 0⟩ 1).balance_after_debt +
          min (stepCore a ⟨100, 0⟩ 1).interest_expense
            |(stepCore a ⟨100, 0⟩ 1).leveraged_pre| ∧
      (cashFlowStep a ⟨100, 0⟩ 1).2.total_capitalized_interest =
        (0 : ℝ) +
          min (stepCore a ⟨100, 0⟩ 1).interest_expense
            |(stepCore a ⟨100, 0⟩ 1).leveraged_pre| ∧
      (¬(1 = a.hold_period_months ∧ a.loan_amount.getD 0 > 0) →
        (cashFlowStep a ⟨100, 0⟩ 1).1.leveraged_cash_flow =
          (stepCore a ⟨100, 0⟩ 1).leveraged_pre +
            min (stepCore a ⟨100, 0⟩ 1).interest_expense
              |(stepCore a ⟨100, 0⟩ 1).leveraged_pre|) := by
  intro a
  refine (capitalized_interest_window a ⟨100, 0⟩ 1).1 ⟨rfl, by norm_num, by norm_num, ?_⟩
  have hnoi : (periodData a 1).noi = -1 := by
    simp only [periodData, expense_escalation_zero_rate, rent_escalation_zero_rate]
    norm_num
  simp only [stepCore, hnoi]
  norm_num [rolloverCosts]

/-! ## C3 and C10: preferred-return accrual is gated on the tier name -/

theorem accrue_preserves_other_names (cm : Bool) (lpE gpE : ℝ) :
    ∀ (tiers : List WaterfallTier) (b : TierBalances) (nm : String),
      nm ∉ tiers.map WaterfallTier.name →
      (accrueTierBalances tiers cm lpE gpE b) nm = b nm := by
  intro tiers
  induction tiers with
  | nil => intro b nm _; rfl
  | cons t rest ih =>
    intro b nm hnm
    simp only [List.map_cons, List.mem_cons, not_or] at hnm
    have step : accrueTierBalances (t :: rest) cm lpE gpE b =
        accrueTierBalances rest cm lpE gpE
          (let monthly_rate := calculate_monthly_pref_rate t.pref_return cm
           let cur := b t.name
           if t.name = "Hurdle I" then
             Function.update b t.name
               (cur.1 + lpE * monthly_rate, cur.2 + gpE * monthly_rate)
           else
             Function.update b t.name
               (cur.1 + cur.1 * monthly_rate, cur.2 + cur.2 * monthly_rate)) := rfl
    rw [step, ih _ nm hnm.2]
    split_ifs <;> exact Function.update_noteq hnm.1 _ b

/-- C3 (amended): the accrual phase treats exactly the tier named Hurdle I as
accruing on the original LP and GP equity contributions (equity times the
monthly pref rate); every tier with any other name, whatever its position,
accrues on its own running balance. -/
theorem pref_accrual_by_tier_name (cm : Bool) (lpE gpE : ℝ)
    (tiers : List WaterfallTier) (b : TierBalances) (t : WaterfallTier)
    (hmem : t ∈ tiers) (hnodup : (tiers.map WaterfallTier.name).Nodup) :
    (accrueTierBalances tiers cm lpE gpE b) t.name =
      (if t.name = "Hurdle I" then
        ((b t.name).1 + lpE * calculate_monthly_pref_rate t.pref_return cm,
         (b t.name).2 + gpE * calculate_monthly_pref_rate t.pref_return cm)
      else
        ((b t.name).1 + (b t.name).1 * calculate_monthly_pref_rate t.pref_return cm,
         (b t.name).2 + (b t.name).2 * calculate_monthly_pref_rate t.pref_return cm)) := by
  induction tiers generalizing b with
  | nil => exact absurd hmem (List.not_mem_nil t)
  | cons hd rest ih =>
    have step : accrueTierBalances (hd :: rest) cm lpE gpE b =
        accrueTierBalances rest cm lpE gpE
          (let monthly_rate := calculate_monthly_pref_rate hd.pref_return cm
           let cur := b hd.name
           if hd.name = "Hurdle I" then
             Function.update b hd.name
               (cur.1 + lpE * monthly_rate, cur.2 + gpE * monthly_rate)
           else
             Function.update b hd.name
               (cur.1 + cur.1 * monthly_rate, cur.2 + cur.2 * monthly_rate)) := rfl
    simp only [List.map_cons, List.nodup_cons] at hnodup
    rcases List.mem_cons.mp hmem with heq | hmem2
    · subst heq
      rw [step, accrue_preserves_other_names cm lpE gpE rest _ t.name hnodup.1]
      split_ifs <;> rw [Function.update_same]
    · have hne : t.name ≠ hd.name := by
        intro h
        exact hnodup.1 (h ▸ List.mem_map_of_mem WaterfallTier.name hmem2)
      rw [step, ih _ hmem2 hnodup.2]
      split_ifs <;> rw [Function.update_noteq hne]

/-- C3 (counterexample to the claim as stated): for the single-tier list whose
first tier is named Single Hurdle (the tier list the API builds on its simple
path), the first tier accrues nothing, not equity times the monthly pref
rate: the gate is the name Hurdle I, not the position. -/
theorem pref_accrual_not_positional :
    ((accrueTierBalances [⟨"Single Hurdle", 5 / 100, 9 / 10, 1 / 10, 0⟩] true
        1200 0 (fun _ => (0, 0))) "Single Hurdle").1 = 0 ∧
      (0 : ℝ) + 1200 * calculate_monthly_pref_rate (5 / 100) true = 5 ∧
      (0 : ℝ) ≠ 5 := by
  refine ⟨?_, ?_, by norm_num⟩
  · have step : accrueTierBalances [⟨"Single Hurdle", 5 / 100, 9 / 10, 1 / 10, 0⟩] true
        1200 0 (fun _ => ((0 : ℝ), (0 : ℝ))) =
        Function.update (fun _ => ((0 : ℝ), (0 : ℝ))) "Single Hurdle"
          (0 + 0 * calculate_monthly_pref_rate (5 / 100) true,
           0 + 0 * calculate_monthly_pref_rate (5 / 100) true) := by
      simp [accrueTierBalances]
    rw [step, Function.update_same]
    norm_num
  · simp only [calculate_monthly_pref_rate, if_pos rfl]
    push_cast
    norm_num

theorem pref_accrual_by_tier_name_witness :
    ((accrueTierBalances [⟨"Single Hurdle", 5 / 100, 9 / 10, 1 / 10, 0⟩] true
        1200 0 (fun _ => (0, 0))) "Single Hurdle") =
      (if "Single Hurdle" = "Hurdle I" then
        (((fun _ => ((0 : ℝ), (0 : ℝ))) "Single Hurdle").1 +
            1200 * calculate_monthly_pref_rate (5 / 100) true,
         ((fun _ => ((0 : ℝ), (0 : ℝ))) "Single Hurdle").2 +
            0 * calculate_monthly_pref_rate (5 / 100) true)
      else
        (((fun _ => ((0 : ℝ), (0 : ℝ))) "Single Hurdle").1 +
            ((fun _ => ((0 : ℝ), (0 : ℝ))) "Single Hurdle").1 *
              calculate_monthly_pref_rate (5 / 100) true,
         ((fun _ => ((0 : ℝ), (0 : ℝ))) "Single Hurdle").2 +
            ((fun _ => ((0 : ℝ), (0 : ℝ))) "Single Hurdle").2 *
              calculate_monthly_pref_rate (5 / 100) true)) :=
  pref_accrual_by_tier_name true 1200 0
    [⟨"Single Hurdle", 5 / 100, 9 / 10, 1 / 10, 0⟩] (fun _ => (0, 0))
    ⟨"Single Hurdle", 5 / 100, 9 / 10, 1 / 10, 0⟩
    (List.mem_singleton_self _) (by simp)

theorem accrue_no_hurdle_zero (cm : Bool) (lpE gpE : ℝ) :
    ∀ (tiers : List WaterfallTier), (∀ t ∈ tiers, t.name ≠ "Hurdle I") →
      accrueTierBalances tiers cm lpE gpE (fun _ => ((0 : ℝ), (0 : ℝ))) =
        fun _ => ((0 : ℝ), (0 : ℝ)) := by
  intro tiers
  induction tiers with
  | nil => intro _; rfl
  | cons hd rest ih =>
    intro hname
    have hhd : hd.name ≠ "Hurdle I" := hname hd (List.mem_cons_self hd rest)
    have step : accrueTierBalances (hd :: rest) cm lpE gpE (fun _ => ((0 : ℝ), (0 : ℝ))) =
        accrueTierBalances rest cm lpE gpE
          (Function.update (fun _ => ((0 : ℝ), (0 : ℝ))) hd.name
            (0 + 0 * calculate_monthly_pref_rate hd.pref_return cm,
             0 + 0 * calculate_monthly_pref_rate hd.pref_return cm)) := by
      show accrueTierBalances rest cm lpE gpE
          (if hd.name = "Hurdle I" then
            Function.update (fun _ => ((0 : ℝ), (0 : ℝ))) hd.name
              (((fun _ => ((0 : ℝ), (0 : ℝ))) hd.name).1 +
                  lpE * calculate_monthly_pref_rate hd.pref_return cm,
               ((fun _ => ((0 : ℝ), (0 : ℝ))) hd.name).2 +
                  gpE * calculate_monthly_pref_rate hd.pref_return cm)
          else
            Function.update (fun _ => ((0 : ℝ), (0 : ℝ))) hd.name
              (((fun _ => ((0 : ℝ), (0 : ℝ))) hd.name).1 +
                  ((fun _ => ((0 : ℝ), (0 : ℝ))) hd.name).1 *
                    calculate_monthly_pref_rate hd.pref_return cm,
               ((fun _ => ((0 : ℝ), (0 : ℝ))) hd.name).2 +
                  ((fun _ => ((0 : ℝ), (0 : ℝ))) hd.name).2 *
                    calculate_monthly_pref_rate hd.pref_return cm)) = _
      rw [if_neg hhd]
    rw [step]
    have hupd : Function.update (fun _ => ((0 : ℝ), (0 : ℝ))) hd.name
        (0 + 0 * calculate_monthly_pref_rate hd.pref_return cm,
         0 + 0 * calculate_monthly_pref_rate hd.pref_return cm) =
        fun _ => ((0 : ℝ), (0 : ℝ)) := by
      have hv : (0 + 0 * calculate_monthly_pref_rate hd.pref_return cm,
          0 + 0 * calculate_monthly_pref_rate hd.pref_return cm) = ((0 : ℝ), (0 : ℝ)) := by
        norm_num
      rw [hv]
      exact Function.update_eq_self hd.name _
    rw [hupd]
    exact ih (fun t ht => hname t (List.mem_cons_of_mem hd ht))

theorem tierFold_zero_bal :
    ∀ (tiers : List WaterfallTier) (s : TierLoopState),
      (∀ n, s.bal n = ((0 : ℝ), (0 : ℝ))) →
      (tiers.foldl (fun s t => tierStep t s) s).remaining = s.remaining ∧
        (tiers.foldl (fun s t => tierStep t s) s).bal = s.bal ∧
        (tiers.foldl (fun s t => tierStep t s) s).lp_pref_total = s.lp_pref_total ∧
        (tiers.foldl (fun s t => tierStep t s) s).gp_pref_total = s.gp_pref_total ∧
        (tiers.foldl (fun s t => tierStep t s) s).gp_promote_total = s.gp_promote_total := by
  intro tiers
  induction tiers with
  | nil => intro s _; exact ⟨rfl, rfl, rfl, rfl, rfl⟩
  | cons hd rest ih =>
    intro s hs
    have hguard : ¬((s.bal hd.name).1 + (s.bal hd.name).2 > 0) := by
      rw [hs hd.name]
      norm_num
    have hstep : tierStep hd s = s ∨ tierStep hd s = { s with stopped := true } := by
      unfold tierStep
      split_ifs
      · left; rfl
      · right; rfl
      · left
        simp only [if_neg hguard]
    have hfold : (hd :: rest).foldl (fun s t => tierStep t s) s =
        rest.foldl (fun s t => tierStep t s) (tierStep hd s) := rfl
    rcases hstep with h | h
    · rw [hfold, h]
      exact ih s hs
    · rw [hfold, h]
      exact ih { s with stopped := true } hs

theorem waterfallStep_no_hurdle (tiers : List WaterfallTier) (final : WaterfallTier)
    (cm : Bool) (lp_share : ℚ) (lpE gpE cf : ℝ) (i : ℕ) (d : Option Date) (st : WState)
    (hname : ∀ t ∈ tiers, t.name ≠ "Hurdle I")
    (hbal : st.balances = fun _ => ((0 : ℝ), (0 : ℝ))) :
    (waterfallStep tiers final cm lp_share lpE gpE cf i d st).2.balances =
        (fun _ => ((0 : ℝ), (0 : ℝ))) ∧
      (waterfallStep tiers final cm lp_share lpE gpE cf i d st).1.lp_preferred_return = 0 ∧
      (waterfallStep tiers final cm lp_share lpE gpE cf i d st).1.gp_preferred_return = 0 ∧
      ((waterfallStep tiers final cm lp_share lpE gpE cf i d st).1.cash_flow > 0 →
        (waterfallStep tiers final cm lp_share lpE gpE cf i d st).1.lp_profit_share =
            ((waterfallStep tiers final cm lp_share lpE gpE cf i d st).1.cash_flow -
              (waterfallStep tiers final cm lp_share lpE gpE cf i d st).1.lp_capital_return -
              (waterfallStep tiers final cm lp_share lpE gpE cf i d st).1.gp_capital_return) *
              (final.lp_split : ℝ) ∧
          (waterfallStep tiers final cm lp_share lpE gpE cf i d st).1.gp_profit_share =
            ((waterfallStep tiers final cm lp_share lpE gpE cf i d st).1.cash_flow -
              (waterfallStep tiers final cm lp_share lpE gpE cf i d st).1.lp_capital_return -
              (waterfallStep tiers final cm lp_share lpE gpE cf i d st).1.gp_capital_return) *
              (final.gp_split : ℝ) ∧
          (waterfallStep tiers final cm lp_share lpE gpE cf i d st).1.gp_promote =
            ((waterfallStep tiers final cm lp_share lpE gpE cf i d st).1.cash_flow -
              (waterfallStep tiers final cm lp_share lpE gpE cf i d st).1.lp_capital_return -
              (waterfallStep tiers final cm lp_share lpE gpE cf i d st).1.gp_capital_return) *
              (final.gp_promote : ℝ)) := by
  have hbal1 : (if i > 0 then accrueTierBalances tiers cm lpE gpE st.balances
      else st.balances) = fun _ => ((0 : ℝ), (0 : ℝ)) := by
    rw [hbal]
    split_ifs
    · exact accrue_no_hurdle_zero cm lpE gpE tiers hname
    · rfl
  by_cases hcf : cf > 0
  · simp only [waterfallStep, if_pos hcf, hbal1]
    by_cases hroc : st.lp_capital_unreturned + st.gp_capital_unreturned > 0
    · simp only [if_pos hroc]
      have key := tierFold_zero_bal tiers
        { remaining := cf - min cf (st.lp_capital_unreturned + st.gp_capital_unreturned),
          bal := fun _ => ((0 : ℝ), (0 : ℝ)), lp_pref_total := 0, gp_pref_total := 0,
          gp_promote_total := 0, stopped := false } (fun n => rfl)
      rw [key.1, key.2.1, key.2.2.1, key.2.2.2.1, key.2.2.2.2]
      refine ⟨rfl, rfl, rfl, ?_⟩
      intro _
      have hrem : (0 : ℝ) ≤ cf - min cf (st.lp_capital_unreturned + st.gp_capital_unreturned) := by
        have := min_le_left cf (st.lp_capital_unreturned + st.gp_capital_unreturned)
        linarith
      by_cases hr : cf - min cf (st.lp_capital_unreturned + st.gp_capital_unreturned) > 0
      · simp only [if_pos hr]
        refine ⟨by ring, by ring, by ring⟩
      · have hz : cf - min cf (st.lp_capital_unreturned + st.gp_capital_unreturned) = 0 :=
          le_antisymm (not_lt.mp hr) hrem
        simp only [if_neg hr]
        refine ⟨by linear_combination (-(final.lp_split : ℝ)) * hz,
          by linear_combination (-(final.gp_split : ℝ)) * hz,
          by linear_combination (-(final.gp_promote : ℝ)) * hz⟩
    · simp only [if_neg hroc]
      have key := tierFold_zero_bal tiers
        { remaining := cf, bal := fun _ => ((0 : ℝ), (0 : ℝ)), lp_pref_total := 0,
          gp_pref_total := 0, gp_promote_total := 0, stopped := false } (fun n => rfl)
      rw [key.1, key.2.1, key.2.2.1, key.2.2.2.1, key.2.2.2.2]
      refine ⟨rfl, rfl, rfl, ?_⟩
      intro _
      simp only [if_pos hcf]
      refine ⟨by ring, by ring, by ring⟩
  · simp only [waterfallStep, if_neg hcf]
    exact ⟨hbal1, by trivial, by trivial, fun h => absurd h hcf⟩

theorem waterfallGo_no_hurdle (tiers : List WaterfallTier) (final : WaterfallTier)
    (cm : Bool) (lp_share : ℚ) (lpE gpE : ℝ) (dates : List Date)
    (hname : ∀ t ∈ tiers, t.name ≠ "Hurdle I") :
    ∀ (cfs : List ℝ) (i : ℕ) (st : WState),
      st.balances = (fun _ => ((0 : ℝ), (0 : ℝ))) →
      ∀ r ∈ waterfallGo tiers final cm lp_share lpE gpE dates cfs i st,
        r.lp_preferred_return = 0 ∧ r.gp_preferred_return = 0 ∧
        (r.cash_flow > 0 →
          r.lp_profit_share =
              (r.cash_flow - r.lp_capital_return - r.gp_capital_return) * (final.lp_split : ℝ) ∧
            r.gp_profit_share =
              (r.cash_flow - r.lp_capital_return - r.gp_capital_return) * (final.gp_split : ℝ) ∧
            r.gp_promote =
              (r.cash_flow - r.lp_capital_return - r.gp_capital_return) * (final.gp_promote : ℝ)) := by
  intro cfs
  induction cfs with
  | nil => intro i st _ r hr; exact absurd hr (List.not_mem_nil r)
  | cons cf rest ih =>
    intro i st hbal r hr
    have hstep := waterfallStep_no_hurdle tiers final cm lp_share lpE gpE cf i
      (dates.get? i) st hname hbal
    rw [show waterfallGo tiers final cm lp_share lpE gpE dates (cf :: rest) i st =
        (waterfallStep tiers final cm lp_share lpE gpE cf i (dates.get? i) st).1 ::
          waterfallGo tiers final cm lp_share lpE gpE dates rest (i + 1)
            (waterfallStep tiers final cm lp_share lpE gpE cf i (dates.get? i) st).2
        from rfl] at hr
    rcases List.mem_cons.mp hr with heq | hmem
    · subst heq
      exact ⟨hstep.2.1, hstep.2.2.1, hstep.2.2.2⟩
    · exact ih (i + 1) _ hstep.1 r hmem

/-- C10: when no configured tier is named exactly Hurdle I (for example the
single-tier list named Single Hurdle that the API builds on its simple path),
the accrual phase leaves the all-zero balance table unchanged, so every
record pays zero preferred return and all cash left after return of capital
goes to the final split (profit shares and promote are exactly the final-split
fractions of cash flow minus capital returned). -/
theorem no_hurdle_name_no_pref (leveraged_cash_flows : List ℝ) (dates : List Date)
    (total_equity lp_share gp_share : ℚ) (tiers : List WaterfallTier)
    (final : WaterfallTier) (cm : Bool)
    (hname : ∀ t ∈ tiers, t.name ≠ "Hurdle I") :
    (∀ lpE gpE : ℝ, accrueTierBalances tiers cm lpE gpE (fun _ => ((0 : ℝ), (0 : ℝ))) =
        fun _ => ((0 : ℝ), (0 : ℝ))) ∧
      ∀ r ∈ waterfallRecordsRaw leveraged_cash_flows dates total_equity lp_share
          gp_share tiers final cm,
        r.lp_preferred_return = 0 ∧ r.gp_preferred_return = 0 ∧
        (r.cash_flow > 0 →
          r.lp_profit_share =
              (r.cash_flow - r.lp_capital_return - r.gp_capital_return) * (final.lp_split : ℝ) ∧
            r.gp_profit_share =
              (r.cash_flow - r.lp_capital_return - r.gp_capital_return) * (final.gp_split : ℝ) ∧
            r.gp_promote =
              (r.cash_flow - r.lp_capital_return - r.gp_capital_return) * (final.gp_promote : ℝ)) := by
  refine ⟨fun lpE gpE => accrue_no_hurdle_zero cm lpE gpE tiers hname, ?_⟩
  exact waterfallGo_no_hurdle tiers final cm lp_share
    ((total_equity * lp_share : ℚ) : ℝ) ((total_equity * gp_share : ℚ) : ℝ) dates hname
    leveraged_cash_flows 0 _ rfl

theorem no_hurdle_name_no_pref_witness :
    (∀ lpE gpE : ℝ,
        accrueTierBalances [⟨"Single Hurdle", 1 / 20, 9 / 10, 1 / 10, 0⟩] true lpE gpE
          (fun _ => ((0 : ℝ), (0 : ℝ))) = fun _ => ((0 : ℝ), (0 : ℝ))) ∧
      ∀ r ∈ waterfallRecordsRaw [-10, 5] [] 100 (9 / 10) (1 / 10)
          [⟨"Single Hurdle", 1 / 20, 9 / 10, 1 / 10, 0⟩] DEFAULT_FINAL_SPLIT true,
        r.lp_preferred_return = 0 ∧ r.gp_preferred_return = 0 ∧
        (r.cash_flow > 0 →
          r.lp_profit_share =
              (r.cash_flow - r.lp_capital_return - r.gp_capital_return) *
                (DEFAULT_FINAL_SPLIT.lp_split : ℝ) ∧
            r.gp_profit_share =
              (r.cash_flow - r.lp_capital_return - r.gp_capital_return) *
                (DEFAULT_FINAL_SPLIT.gp_split : ℝ) ∧
            r.gp_promote =
              (r.cash_flow - r.lp_capital_return - r.gp_capital_return) *
                (DEFAULT_FINAL_SPLIT.gp_promote : ℝ)) :=
  no_hurdle_name_no_pref [-10, 5] [] 100 (9 / 10) (1 / 10)
    [⟨"Single Hurdle", 1 / 20, 9 / 10, 1 / 10, 0⟩] DEFAULT_FINAL_SPLIT true
    (by intro t ht
        simp only [List.mem_singleton] at ht
        subst ht
        decide)

/-! ## C2: waterfall distribution invariants -/

theorem monthly_pref_rate_nonneg (annual_rate : ℚ) (cm : Bool)
    (h : 0 ≤ annual_rate) : 0 ≤ calculate_monthly_pref_rate annual_rate cm := by
  unfold calculate_monthly_pref_rate
  split_ifs
  · positivity
  · have h1 : (1 : ℝ) ≤ 1 + (annual_rate : ℝ) := by
      have : (0 : ℝ) ≤ (annual_rate : ℝ) := by exact_mod_cast h
      linarith
    have h2 : (1 : ℝ) ^ ((1 : ℝ) / 12) ≤ (1 + (annual_rate : ℝ)) ^ ((1 : ℝ) / 12) :=
      Real.rpow_le_rpow (by norm_num) h1 (by norm_num)
    rw [Real.one_rpow] at h2
    linarith

theorem accrue_nonneg (cm : Bool) (lpE gpE : ℝ) (hlpE : 0 ≤ lpE) (hgpE : 0 ≤ gpE) :
    ∀ (tiers : List WaterfallTier), (∀ t ∈ tiers, 0 ≤ t.pref_return) →
      ∀ (b : TierBalances), (∀ n, 0 ≤ (b n).1 ∧ 0 ≤ (b n).2) →
      ∀ n, 0 ≤ ((accrueTierBalances tiers cm lpE gpE b) n).1 ∧
        0 ≤ ((accrueTierBalances tiers cm lpE gpE b) n).2 := by
  intro tiers
  induction tiers with
  | nil => intro _ b hb n; exact hb n
  | cons hd rest ih =>
    intro hpref b hb
    have hrate : 0 ≤ calculate_monthly_pref_rate hd.pref_return cm :=
      monthly_pref_rate_nonneg hd.pref_return cm (hpref hd (List.mem_cons_self hd rest))
    have step : accrueTierBalances (hd :: rest) cm lpE gpE b =
        accrueTierBalances rest cm lpE gpE
          (if hd.name = "Hurdle I" then
            Function.update b hd.name
              ((b hd.name).1 + lpE * calculate_monthly_pref_rate hd.pref_return cm,
               (b hd.name).2 + gpE * calculate_monthly_pref_rate hd.pref_return cm)
          else
            Function.update b hd.name
              ((b hd.name).1 + (b hd.name).1 * calculate_monthly_pref_rate hd.pref_return cm,
               (b hd.name).2 + (b hd.name).2 * calculate_monthly_pref_rate hd.pref_return cm)) := rfl
    rw [step]
    refine ih (fun t ht => hpref t (List.mem_cons_of_mem hd ht)) _ ?_
    intro n
    rcases hb hd.name with ⟨hb1, hb2⟩
    split_ifs with hname
    · rw [Function.update_apply]
      split_ifs with hn
      · constructor <;> simp only []
        · have := mul_nonneg hlpE hrate
          linarith
        · have := mul_nonneg hgpE hrate
          linarith
      · exact hb n
    · rw [Function.update_apply]
      split_ifs with hn
      · constructor <;> simp only []
        · have := mul_nonneg hb1 hrate
          linarith
        · have := mul_nonneg hb2 hrate
          linarith
      · exact hb n

theorem tierStep_invariant (hd : WaterfallTier)
    (hhd : 0 ≤ hd.lp_split ∧ 0 ≤ hd.gp_split ∧ hd.lp_split + hd.gp_split ≤ 1 ∧
      0 ≤ hd.gp_promote)
    (s : TierLoopState) (hrem : 0 ≤ s.remaining)
    (hbal : ∀ n, 0 ≤ (s.bal n).1 ∧ 0 ≤ (s.bal n).2) :
    0 ≤ (tierStep hd s).remaining ∧
      (∀ n, 0 ≤ ((tierStep hd s).bal n).1 ∧ 0 ≤ ((tierStep hd s).bal n).2) ∧
      (tierStep hd s).remaining + (tierStep hd s).lp_pref_total +
          (tierStep hd s).gp_pref_total + (tierStep hd s).gp_promote_total =
        s.remaining + s.lp_pref_total + s.gp_pref_total + s.gp_promote_total := by
  obtain ⟨hls, hgs, hsum, hpr⟩ := hhd
  have hlsR : (0 : ℝ) ≤ (hd.lp_split : ℝ) := by exact_mod_cast hls
  have hgsR : (0 : ℝ) ≤ (hd.gp_split : ℝ) := by exact_mod_cast hgs
  have hsumR : (hd.lp_split : ℝ) + (hd.gp_split : ℝ) ≤ 1 := by exact_mod_cast hsum
  have hprR : (0 : ℝ) ≤ (hd.gp_promote : ℝ) := by exact_mod_cast hpr
  rcases hbal hd.name with ⟨hb1, hb2⟩
  have hlp_pay : 0 ≤ min ((s.bal hd.name).1) (s.remaining * (hd.lp_split : ℝ)) :=
    le_min hb1 (mul_nonneg hrem hlsR)
  have hgp_pay : 0 ≤ min ((s.bal hd.name).2) (s.remaining * (hd.gp_split : ℝ)) :=
    le_min hb2 (mul_nonneg hrem hgsR)
  have hlp_le : min ((s.bal hd.name).1) (s.remaining * (hd.lp_split : ℝ)) ≤
      s.remaining * (hd.lp_split : ℝ) := min_le_right _ _
  have hgp_le : min ((s.bal hd.name).2) (s.remaining * (hd.gp_split : ℝ)) ≤
      s.remaining * (hd.gp_split : ℝ) := min_le_right _ _
  have hrem2 : 0 ≤ s.remaining -
      (min ((s.bal hd.name).1) (s.remaining * (hd.lp_split : ℝ)) +
        min ((s.bal hd.name).2) (s.remaining * (hd.gp_split : ℝ))) := by
    nlinarith
  have hbal2 : ∀ n,
      0 ≤ ((Function.update s.bal hd.name
          ((s.bal hd.name).1 - min ((s.bal hd.name).1) (s.remaining * (hd.lp_split : ℝ)),
           (s.bal hd.name).2 - min ((s.bal hd.name).2) (s.remaining * (hd.gp_split : ℝ)))) n).1 ∧
      0 ≤ ((Function.update s.bal hd.name
          ((s.bal hd.name).1 - min ((s.bal hd.name).1) (s.remaining * (hd.lp_split : ℝ)),
           (s.bal hd.name).2 - min ((s.bal hd.name).2) (s.remaining * (hd.gp_split : ℝ)))) n).2 := by
    intro n
    rw [Function.update_apply]
    split_ifs with hn
    · constructor <;> simp only []
      · have := min_le_left ((s.bal hd.name).1) (s.remaining * (hd.lp_split : ℝ))
        linarith
      · have := min_le_left ((s.bal hd.name).2) (s.remaining * (hd.gp_split : ℝ))
        linarith
    · exact hbal n
  unfold tierStep
  split_ifs with h1 h2
  · exact ⟨hrem, hbal, by ring⟩
  · exact ⟨hrem, hbal, by ring⟩
  · by_cases h3 : (s.bal hd.name).1 + (s.bal hd.name).2 > 0
    · rw [if_pos h3]
      by_cases hp : (hd.gp_promote : ℝ) > 0 ∧
          min ((s.bal hd.name).1) (s.remaining * (hd.lp_split : ℝ)) +
            min ((s.bal hd.name).2) (s.remaining * (hd.gp_split : ℝ)) > 0
      · simp only [if_pos hp]
        refine ⟨?_, hbal2, by ring⟩
        have hmin := min_le_left
          (s.remaining -
            (min ((s.bal hd.name).1) (s.remaining * (hd.lp_split : ℝ)) +
              min ((s.bal hd.name).2) (s.remaining * (hd.gp_split : ℝ))))
          ((min ((s.bal hd.name).1) (s.remaining * (hd.lp_split : ℝ)) +
              min ((s.bal hd.name).2) (s.remaining * (hd.gp_split : ℝ))) *
            (hd.gp_promote : ℝ) / ((hd.lp_split : ℝ) + (hd.gp_split : ℝ)))
        linarith
      · simp only [if_neg hp]
        refine ⟨?_, hbal2, by ring⟩
        linarith
    · rw [if_neg h3]
      exact ⟨hrem, hbal, by ring⟩

theorem tierFold_invariant :
    ∀ (tiers : List WaterfallTier),
      (∀ t ∈ tiers, 0 ≤ t.lp_split ∧ 0 ≤ t.gp_split ∧ t.lp_split + t.gp_split ≤ 1 ∧
        0 ≤ t.gp_promote) →
      ∀ (s : TierLoopState), 0 ≤ s.remaining →
      (∀ n, 0 ≤ (s.bal n).1 ∧ 0 ≤ (s.bal n).2) →
      0 ≤ (tiers.foldl (fun s t => tierStep t s) s).remaining ∧
        (∀ n, 0 ≤ ((tiers.foldl (fun s t => tierStep t s) s).bal n).1 ∧
          0 ≤ ((tiers.foldl (fun s t => tierStep t s) s).bal n).2) ∧
        (tiers.foldl (fun s t => tierStep t s) s).remaining +
            (tiers.foldl (fun s t => tierStep t s) s).lp_pref_total +
            (tiers.foldl (fun s t => tierStep t s) s).gp_pref_total +
            (tiers.foldl (fun s t => tierStep t s) s).gp_promote_total =
          s.remaining + s.lp_pref_total + s.gp_pref_total + s.gp_promote_total := by
  intro tiers
  induction tiers with
  | nil => intro _ s h1 h2; exact ⟨h1, h2, rfl⟩
  | cons hd rest ih =>
    intro hhyp s hrem hbal
    have hstep := tierStep_invariant hd (hhyp hd (List.mem_cons_self hd rest)) s hrem hbal
    have hfold : (hd :: rest).foldl (fun s t => tierStep t s) s =
        rest.foldl (fun s t => tierStep t s) (tierStep hd s) := rfl
    rw [hfold]
    have ihres := ih (fun t ht => hhyp t (List.mem_cons_of_mem hd ht))
      (tierStep hd s) hstep.1 hstep.2.1
    exact ⟨ihres.1, ihres.2.1, by rw [ihres.2.2]; exact hstep.2.2⟩

theorem waterfallStep_c2 (tiers : List WaterfallTier) (final : WaterfallTier)
    (cm : Bool) (lp_share : ℚ) (lpE gpE cf : ℝ) (i : ℕ) (d : Option Date) (st : WState)
    (htiers : ∀ t ∈ tiers, 0 ≤ t.pref_return ∧ 0 ≤ t.lp_split ∧ 0 ≤ t.gp_split ∧
      t.lp_split + t.gp_split ≤ 1 ∧ 0 ≤ t.gp_promote)
    (hfin : 0 ≤ final.lp_split ∧ 0 ≤ final.gp_split ∧ 0 ≤ final.gp_promote ∧
      final.lp_split + final.gp_split + final.gp_promote ≤ 1)
    (hlpE : 0 ≤ lpE) (hgpE : 0 ≤ gpE)
    (hlp : 0 ≤ st.lp_capital_unreturned) (hgp : 0 ≤ st.gp_capital_unreturned)
    (hbal : ∀ n, 0 ≤ (st.balances n).1 ∧ 0 ≤ (st.balances n).2) :
    0 ≤ (waterfallStep tiers final cm lp_share lpE gpE cf i d st).2.lp_capital_unreturned ∧
      0 ≤ (waterfallStep tiers final cm lp_share lpE gpE cf i d st).2.gp_capital_unreturned ∧
      (waterfallStep tiers final cm lp_share lpE gpE cf i d st).2.lp_capital_unreturned ≤
        st.lp_capital_unreturned ∧
      (waterfallStep tiers final cm lp_share lpE gpE cf i d st).2.gp_capital_unreturned ≤
        st.gp_capital_unreturned ∧
      (∀ n, 0 ≤ ((waterfallStep tiers final cm lp_share lpE gpE cf i d st).2.balances n).1 ∧
        0 ≤ ((waterfallStep tiers final cm lp_share lpE gpE cf i d st).2.balances n).2) ∧
      (waterfallStep tiers final cm lp_share lpE gpE cf i d st).1.lp_capital_unreturned =
        (waterfallStep tiers final cm lp_share lpE gpE cf i d st).2.lp_capital_unreturned ∧
      (waterfallStep tiers final cm lp_share lpE gpE cf i d st).1.gp_capital_unreturned =
        (waterfallStep tiers final cm lp_share lpE gpE cf i d st).2.gp_capital_unreturned ∧
      (waterfallStep tiers final cm lp_share lpE gpE cf i d st).1.cash_flow = cf ∧
      (waterfallStep tiers final cm lp_share lpE gpE cf i d st).1.total_to_lp +
          (waterfallStep tiers final cm lp_share lpE gpE cf i d st).1.total_to_gp ≤
        max cf 0 := by
  have hfls : (0 : ℝ) ≤ (final.lp_split : ℝ) := by exact_mod_cast hfin.1
  have hfgs : (0 : ℝ) ≤ (final.gp_split : ℝ) := by exact_mod_cast hfin.2.1
  have hfpr : (0 : ℝ) ≤ (final.gp_promote : ℝ) := by exact_mod_cast hfin.2.2.1
  have hfsum : (final.lp_split : ℝ) + (final.gp_split : ℝ) + (final.gp_promote : ℝ) ≤ 1 := by
    exact_mod_cast hfin.2.2.2
  have hbal1 : ∀ n,
      0 ≤ ((if i > 0 then accrueTierBalances tiers cm lpE gpE st.balances
          else st.balances) n).1 ∧
      0 ≤ ((if i > 0 then accrueTierBalances tiers cm lpE gpE st.balances
          else st.balances) n).2 := by
    split_ifs
    · exact accrue_nonneg cm lpE gpE hlpE hgpE tiers (fun t ht => (htiers t ht).1)
        st.balances hbal
    · exact hbal
  by_cases hcf : cf > 0
  · simp only [waterfallStep, if_pos hcf]
    by_cases hroc : st.lp_capital_unreturned + st.gp_capital_unreturned > 0
    · simp only [if_pos hroc]
      have hTne : st.lp_capital_unreturned + st.gp_capital_unreturned ≠ 0 := ne_of_gt hroc
      have hpay0 : 0 ≤ min cf (st.lp_capital_unreturned + st.gp_capital_unreturned) :=
        le_min hcf.le hroc.le
      have hpayT : min cf (st.lp_capital_unreturned + st.gp_capital_unreturned) ≤
          st.lp_capital_unreturned + st.gp_capital_unreturned := min_le_right _ _
      have hpaycf : min cf (st.lp_capital_unreturned + st.gp_capital_unreturned) ≤ cf :=
        min_le_left _ _
      have hpct0 : 0 ≤ st.lp_capital_unreturned /
          (st.lp_capital_unreturned + st.gp_capital_unreturned) :=
        div_nonneg hlp hroc.le
      have hpct1 : st.lp_capital_unreturned /
          (st.lp_capital_unreturned + st.gp_capital_unreturned) ≤ 1 := by
        rw [div_le_one hroc]
        linarith
      have hlpret : min cf (st.lp_capital_unreturned + st.gp_capital_unreturned) *
          (st.lp_capital_unreturned /
            (st.lp_capital_unreturned + st.gp_capital_unreturned)) ≤
          st.lp_capital_unreturned := by
        have h1 : min cf (st.lp_capital_unreturned + st.gp_capital_unreturned) *
            (st.lp_capital_unreturned /
              (st.lp_capital_unreturned + st.gp_capital_unreturned)) ≤
            (st.lp_capital_unreturned + st.gp_capital_unreturned) *
            (st.lp_capital_unreturned /
              (st.lp_capital_unreturned + st.gp_capital_unreturned)) :=
          mul_le_mul_of_nonneg_right hpayT hpct0
        have h2 : (st.lp_capital_unreturned + st.gp_capital_unreturned) *
            (st.lp_capital_unreturned /
              (st.lp_capital_unreturned + st.gp_capital_unreturned)) =
            st.lp_capital_unreturned := by
          field_simp
        linarith
      have hgpret : min cf (st.lp_capital_unreturned + st.gp_capital_unreturned) *
          (1 - st.lp_capital_unreturned /
            (st.lp_capital_unreturned + st.gp_capital_unreturned)) ≤
          st.gp_capital_unreturned := by
        have h1m : 1 - st.lp_capital_unreturned /
            (st.lp_capital_unreturned + st.gp_capital_unreturned) =
            st.gp_capital_unreturned /
              (st.lp_capital_unreturned + st.gp_capital_unreturned) := by
          field_simp
        rw [h1m]
        have h1 : min cf (st.lp_capital_unreturned + st.gp_capital_unreturned) *
            (st.gp_capital_unreturned /
              (st.lp_capital_unreturned + st.gp_capital_unreturned)) ≤
            (st.lp_capital_unreturned + st.gp_capital_unreturned) *
            (st.gp_capital_unreturned /
              (st.lp_capital_unreturned + st.gp_capital_unreturned)) :=
          mul_le_mul_of_nonneg_right hpayT (div_nonneg hgp hroc.le)
        have h2 : (st.lp_capital_unreturned + st.gp_capital_unreturned) *
            (st.gp_capital_unreturned /
              (st.lp_capital_unreturned + st.gp_capital_unreturned)) =
            st.gp_capital_unreturned := by
          field_simp
        linarith
      have hlpret0 : 0 ≤ min cf (st.lp_capital_unreturned + st.gp_capital_unreturned) *
          (st.lp_capital_unreturned /
            (st.lp_capital_unreturned + st.gp_capital_unreturned)) :=
        mul_nonneg hpay0 hpct0
      have hgpret0 : 0 ≤ min cf (st.lp_capital_unreturned + st.gp_capital_unreturned) *
          (1 - st.lp_capital_unreturned /
            (st.lp_capital_unreturned + st.gp_capital_unreturned)) :=
        mul_nonneg hpay0 (by linarith)
      have hfold := tierFold_invariant tiers (fun t ht => (htiers t ht).2)
        { remaining := cf - min cf (st.lp_capital_unreturned + st.gp_capital_unreturned),
          bal := (if i > 0 then accrueTierBalances tiers cm lpE gpE st.balances
            else st.balances),
          lp_pref_total := 0, gp_pref_total := 0, gp_promote_total := 0, stopped := false }
        (by simp only []; linarith) hbal1
      refine ⟨by linarith, by linarith, by linarith, by linarith, hfold.2.1,
        by trivial, by trivial, by trivial, ?_⟩
      rw [max_eq_left hcf.le]
      rcases hfold with ⟨hrem, _, hcons⟩
      simp only [] at hcons
      by_cases hpos : (List.foldl (fun s t => tierStep t s)
          { remaining := cf - min cf (st.lp_capital_unreturned + st.gp_capital_unreturned),
            bal := (if i > 0 then accrueTierBalances tiers cm lpE gpE st.balances
              else st.balances),
            lp_pref_total := 0, gp_pref_total := 0, gp_promote_total := 0,
            stopped := false } tiers).remaining > 0
      · simp only [if_pos hpos]
        nlinarith [mul_nonneg hpos.le
          (by linarith : (0 : ℝ) ≤ 1 -
            ((final.lp_split : ℝ) + (final.gp_split : ℝ) + (final.gp_promote : ℝ)))]
      · simp only [if_neg hpos]
        nlinarith
    · simp only [if_neg hroc]
      have hfold := tierFold_invariant tiers (fun t ht => (htiers t ht).2)
        { remaining := cf,
          bal := (if i > 0 then accrueTierBalances tiers cm lpE gpE st.balances
            else st.balances),
          lp_pref_total := 0, gp_pref_total := 0, gp_promote_total := 0, stopped := false }
        (by simp only []; linarith) hbal1
      refine ⟨hlp, hgp, le_refl _, le_refl _, hfold.2.1,
        by trivial, by trivial, by trivial, ?_⟩
      rw [max_eq_left hcf.le]
      rcases hfold with ⟨hrem, _, hcons⟩
      simp only [] at hcons
      by_cases hpos : (List.foldl (fun s t => tierStep t s)
          { remaining := cf,
            bal := (if i > 0 then accrueTierBalances tiers cm lpE gpE st.balances
              else st.balances),
            lp_pref_total := 0, gp_pref_total := 0, gp_promote_total := 0,
            stopped := false } tiers).remaining > 0
      · simp only [if_pos hpos]
        nlinarith [mul_nonneg hpos.le
          (by linarith : (0 : ℝ) ≤ 1 -
            ((final.lp_split : ℝ) + (final.gp_split : ℝ) + (final.gp_promote : ℝ)))]
      · simp only [if_neg hpos]
        nlinarith
  · simp only [waterfallStep, if_neg hcf]
    exact ⟨hlp, hgp, le_refl _, le_refl _, hbal1, by trivial, by trivial, by trivial, by
      have := le_max_right cf (0 : ℝ)
      linarith⟩

theorem waterfallGo_cons (tiers : List WaterfallTier) (final : WaterfallTier)
    (cm : Bool) (lp_share : ℚ) (lpE gpE : ℝ) (dates : List Date) (cf : ℝ)
    (rest : List ℝ) (i : ℕ) (st : WState) :
    waterfallGo tiers final cm lp_share lpE gpE dates (cf :: rest) i st =
      (waterfallStep tiers final cm lp_share lpE gpE cf i (dates.get? i) st).1 ::
        waterfallGo tiers final cm lp_share lpE gpE dates rest (i + 1)
          (waterfallStep tiers final cm lp_share lpE gpE cf i (dates.get? i) st).2 := rfl

theorem waterfallGo_c2 (tiers : List WaterfallTier) (final : WaterfallTier)
    (cm : Bool) (lp_share : ℚ) (lpE gpE : ℝ) (dates : List Date)
    (htiers : ∀ t ∈ tiers, 0 ≤ t.pref_return ∧ 0 ≤ t.lp_split ∧ 0 ≤ t.gp_split ∧
      t.lp_split + t.gp_split ≤ 1 ∧ 0 ≤ t.gp_promote)
    (hfin : 0 ≤ final.lp_split ∧ 0 ≤ final.gp_split ∧ 0 ≤ final.gp_promote ∧
      final.lp_split + final.gp_split + final.gp_promote ≤ 1)
    (hlpE : 0 ≤ lpE) (hgpE : 0 ≤ gpE) :
    ∀ (cfs : List ℝ) (i : ℕ) (st : WState),
      0 ≤ st.lp_capital_unreturned → 0 ≤ st.gp_capital_unreturned →
      (∀ n, 0 ≤ (st.balances n).1 ∧ 0 ≤ (st.balances n).2) →
      (∀ r ∈ waterfallGo tiers final cm lp_share lpE gpE dates cfs i st,
        r.total_to_lp + r.total_to_gp ≤ max r.cash_flow 0 ∧
        0 ≤ r.lp_capital_unreturned ∧ 0 ≤ r.gp_capital_unreturned ∧
        r.lp_capital_unreturned ≤ st.lp_capital_unreturned ∧
        r.gp_capital_unreturned ≤ st.gp_capital_unreturned) ∧
      List.Chain' (fun a b => b.lp_capital_unreturned ≤ a.lp_capital_unreturned ∧
        b.gp_capital_unreturned ≤ a.gp_capital_unreturned)
        (waterfallGo tiers final cm lp_share lpE gpE dates cfs i st) := by
  intro cfs
  induction cfs with
  | nil =>
    intro i st _ _ _
    exact ⟨fun r hr => absurd hr (List.not_mem_nil r), List.chain'_nil⟩
  | cons cf rest ih =>
    intro i st hstlp hstgp hstbal
    have hstep := waterfallStep_c2 tiers final cm lp_share lpE gpE cf i
      (dates.get? i) st htiers hfin hlpE hgpE hstlp hstgp hstbal
    obtain ⟨h1, h2, h3, h4, h5, h6, h7, h8, h9⟩ := hstep
    have ihres := ih (i + 1)
      (waterfallStep tiers final cm lp_share lpE gpE cf i (dates.get? i) st).2 h1 h2 h5
    rw [waterfallGo_cons]
    constructor
    · intro r hr
      rcases List.mem_cons.mp hr with heq | hmem
    
      · subst heq
        refine ⟨?_, ?_, ?_, ?_, ?_⟩
        · rw [h8]
          exact h9
        · rw [h6]; exact h1
        · rw [h7]; exact h2
        · rw [h6]; linarith
        · rw [h7]; linarith
      · rcases (ihres.1 r hmem) with ⟨hb1, hb2, hb3, hb4, hb5⟩
        exact ⟨hb1, hb2, hb3, by linarith, by linarith⟩
    · rw [List.chain'_cons']
      refine ⟨?_, ihres.2⟩
      intro y hy
      have hymem : y ∈ waterfallGo tiers final cm lp_share lpE gpE dates rest (i + 1)
          (waterfallStep tiers final cm lp_share lpE gpE cf i (dates.get? i) st).2 :=
        List.mem_of_mem_head? hy
      rcases (ihres.1 y hymem) with ⟨_, _, _, hy4, hy5⟩
      exact ⟨by rw [h6]; exact hy4, by rw [h7]; exact hy5⟩

/-- C2: in the waterfall engine, under a valid configuration (nonnegative
equity, shares, pref rates, splits and promotes, with each hurdle split pair
summing to at most 1 and the final split fractions summing to at most 1),
every period distributes to LP and GP together at most max(cash flow, 0),
and both unreturned-capital balances are nonnegative, never exceed the
initial equity contributions, and are non-increasing from period to period. -/
theorem waterfall_distribution_invariants (leveraged_cash_flows : List ℝ)
    (dates : List Date) (total_equity lp_share gp_share : ℚ)
    (tiers : List WaterfallTier) (final : WaterfallTier) (cm : Bool)
    (hE : 0 ≤ total_equity) (hlp : 0 ≤ lp_share) (hgp : 0 ≤ gp_share)
    (htiers : ∀ t ∈ tiers, 0 ≤ t.pref_return ∧ 0 ≤ t.lp_split ∧ 0 ≤ t.gp_split ∧
      t.lp_split + t.gp_split ≤ 1 ∧ 0 ≤ t.gp_promote)
    (hfin : 0 ≤ final.lp_split ∧ 0 ≤ final.gp_split ∧ 0 ≤ final.gp_promote ∧
      final.lp_split + final.gp_split + final.gp_promote ≤ 1) :
    (∀ r ∈ waterfallRecordsRaw leveraged_cash_flows dates total_equity lp_share
        gp_share tiers final cm,
      r.total_to_lp + r.total_to_gp ≤ max r.cash_flow 0 ∧
      0 ≤ r.lp_capital_unreturned ∧ 0 ≤ r.gp_capital_unreturned ∧
      r.lp_capital_unreturned ≤ ((total_equity * lp_share : ℚ) : ℝ) ∧
      r.gp_capital_unreturned ≤ ((total_equity * gp_share : ℚ) : ℝ)) ∧
    List.Chain' (fun a b => b.lp_capital_unreturned ≤ a.lp_capital_unreturned ∧
      b.gp_capital_unreturned ≤ a.gp_capital_unreturned)
      (waterfallRecordsRaw leveraged_cash_flows dates total_equity lp_share
        gp_share tiers final cm) := by
  have hlpE : (0 : ℝ) ≤ ((total_equity * lp_share : ℚ) : ℝ) := by
    have : (0 : ℚ) ≤ total_equity * lp_share := mul_nonneg hE hlp
    exact_mod_cast this
  have hgpE : (0 : ℝ) ≤ ((total_equity * gp_share : ℚ) : ℝ) := by
    have : (0 : ℚ) ≤ total_equity * gp_share := mul_nonneg hE hgp
    exact_mod_cast this
  exact waterfallGo_c2 tiers final cm lp_share _ _ dates htiers hfin hlpE hgpE
    leveraged_cash_flows 0
    ⟨((total_equity * lp_share : ℚ) : ℝ), ((total_equity * gp_share : ℚ) : ℝ),
      fun _ => (0, 0)⟩
    hlpE hgpE (fun n => ⟨le_refl 0, le_refl 0⟩)

theorem waterfall_distribution_invariants_witness :
    (∀ r ∈ waterfallRecordsRaw [-100] [] 100 (9 / 10) (1 / 10)
        [⟨"Single Hurdle", 1 / 20, 9 / 10, 1 / 10, 0⟩] DEFAULT_FINAL_SPLIT true,
      r.total_to_lp + r.total_to_gp ≤ max r.cash_flow 0 ∧
      0 ≤ r.lp_capital_unreturned ∧ 0 ≤ r.gp_capital_unreturned ∧
      r.lp_capital_unreturned ≤ (((100 : ℚ) * (9 / 10) : ℚ) : ℝ) ∧
      r.gp_capital_unreturned ≤ (((100 : ℚ) * (1 / 10) : ℚ) : ℝ)) ∧
    List.Chain' (fun a b => b.lp_capital_unreturned ≤ a.lp_capital_unreturned ∧
      b.gp_capital_unreturned ≤ a.gp_capital_unreturned)
      (waterfallRecordsRaw [-100] [] 100 (9 / 10) (1 / 10)
        [⟨"Single Hurdle", 1 / 20, 9 / 10, 1 / 10, 0⟩] DEFAULT_FINAL_SPLIT true) :=
  waterfall_distribution_invariants [-100] [] 100 (9 / 10) (1 / 10)
    [⟨"Single Hurdle", 1 / 20, 9 / 10, 1 / 10, 0⟩] DEFAULT_FINAL_SPLIT true
    (by norm_num) (by norm_num) (by norm_num)
    (by
      intro t ht
      simp only [List.mem_singleton] at ht
      subst ht
      norm_num)
    (by
      simp only [DEFAULT_FINAL_SPLIT]
      norm_num)

theorem npv_pair (r : ℚ) :
    calculate_npv [-100, 1200] r = -100 + 1200 / (1 + r) := by
  simp [calculate_npv, List.enum, List.enumFrom]

theorem npv_deriv_pair (r : ℚ) :
    npv_derivative [-100, 1200] r = -(1200 / (1 + r) ^ 2) := by
  simp [npv_derivative, List.enum, List.enumFrom]

theorem irr_step_deriv (r : ℚ) (h1 : 11 / 10 ≤ 1 + r) (h2 : 1 + r < 12) :
    ¬ |npv_derivative [-100, 1200] r| < TOLERANCE := by
  have hu : (0 : ℚ) < 1 + r := by linarith
  have hsq : (1 + r) ^ 2 ≤ 144 := by nlinarith
  rw [npv_deriv_pair, abs_neg, not_lt, TOLERANCE,
    abs_of_nonneg (by positivity), le_div_iff₀ (by positivity)]
  nlinarith

theorem irr_step_new (r : ℚ) (h1 : 11 / 10 ≤ 1 + r) :
    r - calculate_npv [-100, 1200] r / npv_derivative [-100, 1200] r
      = 11 - (12 - (1 + r)) ^ 2 / 12 := by
  have hu : (1 + r) ≠ 0 := by intro h; rw [h] at h1; norm_num at h1
  rw [npv_pair, npv_deriv_pair]
  field_simp
  ring

theorem newtonNext_bounds (r : ℚ) (h1 : 11 / 10 ≤ 1 + r) (h2 : 1 + r < 12) :
    11 / 10 ≤ 1 + (11 - (12 - (1 + r)) ^ 2 / 12) ∧
      1 + (11 - (12 - (1 + r)) ^ 2 / 12) < 12 := by
  have hE : (0 : ℚ) < 12 - (1 + r) := by linarith
  have hE2 : 12 - (1 + r) ≤ 109 / 10 := by linarith
  constructor
  · nlinarith [mul_le_mul_of_nonneg_left hE2 hE.le]
  · nlinarith [mul_pos hE hE]

theorem newtonConv_value (r : ℚ) (h1 : 11 / 10 ≤ 1 + r) (h2 : 1 + r < 12)
    (hc : |11 - (12 - (1 + r)) ^ 2 / 12 - r| < TOLERANCE) :
    10 + TOLERANCE < 11 - (12 - (1 + r)) ^ 2 / 12 := by
  have hE : (0 : ℚ) < 12 - (1 + r) := by linarith
  have hE2 : 12 - (1 + r) ≤ 109 / 10 := by linarith
  have hx : 11 - (12 - (1 + r)) ^ 2 / 12 - r
      = (12 - (1 + r)) - (12 - (1 + r)) ^ 2 / 12 := by ring
  rw [hx, abs_lt] at hc
  have h3 := hc.2
  have hp : (12 - (1 + r)) ^ 2 ≤ (109 / 10) * (12 - (1 + r)) := by
    nlinarith [mul_le_mul_of_nonneg_left hE2 hE.le]
  have he2 : 12 - (1 + r) < 11 * TOLERANCE := by
    rw [TOLERANCE] at h3 ⊢
    linarith
  have h4 : (12 - (1 + r)) ^ 2 < (11 * TOLERANCE) * (11 * TOLERANCE) := by
    nlinarith [hE]
  rw [TOLERANCE] at h4 ⊢
  linarith

theorem irrLoop_pair_ok_bound :
    ∀ (n : ℕ) (r : ℚ), 11 / 10 ≤ 1 + r → 1 + r < 12 →
      ∀ v, irrLoop [-100, 1200] n r = Except.ok v → 10 + TOLERANCE < v := by
  intro n
  induction n with
  | zero =>
    intro r _ _ v h
    rw [show irrLoop [-100, 1200] 0 r
        = Except.error "IRR calculation did not converge" from rfl] at h
    exact Except.noConfusion h
  | succ n ih =>
    intro r h1 h2 v h
    rw [show irrLoop [-100, 1200] (n + 1) r
        = (if |npv_derivative [-100, 1200] r| < TOLERANCE then
            Except.error "IRR calculation failed: derivative too small"
          else
            if |r - calculate_npv [-100, 1200] r / npv_derivative [-100, 1200] r - r|
                < TOLERANCE then
              Except.ok (r - calculate_npv [-100, 1200] r / npv_derivative [-100, 1200] r)
            else irrLoop [-100, 1200] n
              (r - calculate_npv [-100, 1200] r / npv_derivative [-100, 1200] r))
        from rfl] at h
    rw [if_neg (irr_step_deriv r h1 h2), irr_step_new r h1] at h
    by_cases hc : |11 - (12 - (1 + r)) ^ 2 / 12 - r| < TOLERANCE
    · rw [if_pos hc] at h
      injection h with hv
      rw [← hv]
      exact newtonConv_value r h1 h2 hc
    · rw [if_neg hc] at h
      obtain ⟨hb1, hb2⟩ := newtonNext_bounds r h1 h2
      exact ih _ hb1 hb2 v h

theorem irrLoop_pair_converges :
    ∀ (n : ℕ) (r : ℚ), 11 / 10 ≤ 1 + r → 1 + r < 12 →
      12 * ((12 - (1 + r)) / 12) ^ (2 ^ n) < TOLERANCE →
      ∃ v, irrLoop [-100, 1200] (n + 1) r = Except.ok v := by
  intro n
  induction n with
  | zero =>
    intro r h1 h2 hb
    rw [pow_zero, pow_one] at hb
    have h12 : 12 * ((12 - (1 + r)) / 12) = 12 - (1 + r) := by ring
    rw [h12] at hb
    rw [show irrLoop [-100, 1200] (0 + 1) r
        = (if |npv_derivative [-100, 1200] r| < TOLERANCE then
            Except.error "IRR calculation failed: derivative too small"
          else
            if |r - calculate_npv [-100, 1200] r / npv_derivative [-100, 1200] r - r|
                < TOLERANCE then
              Except.ok (r - calculate_npv [-100, 1200] r / npv_derivative [-100, 1200] r)
            else irrLoop [-100, 1200] 0
              (r - calculate_npv [-100, 1200] r / npv_derivative [-100, 1200] r))
        from rfl]
    rw [if_neg (irr_step_deriv r h1 h2), irr_step_new r h1]
    have hE : (0 : ℚ) < 12 - (1 + r) := by linarith
    have hE2 : 12 - (1 + r) ≤ 109 / 10 := by linarith
    have hc : |11 - (12 - (1 + r)) ^ 2 / 12 - r| < TOLERANCE := by
      have hx : 11 - (12 - (1 + r)) ^ 2 / 12 - r
          = (12 - (1 + r)) - (12 - (1 + r)) ^ 2 / 12 := by ring
      rw [hx, abs_lt, TOLERANCE]
      rw [TOLERANCE] at hb
      constructor
      · nlinarith [mul_le_mul_of_nonneg_left hE2 hE.le]
      · nlinarith [sq_nonneg (12 - (1 + r))]
    rw [if_pos hc]
    exact ⟨_, rfl⟩
  | succ n ih =>
    intro r h1 h2 hb
    rw [show irrLoop [-100, 1200] (n + 1 + 1) r
        = (if |npv_derivative [-100, 1200] r| < TOLERANCE then
            Except.error "IRR calculation failed: derivative too small"
          else
            if |r - calculate_npv [-100, 1200] r / npv_derivative [-100, 1200] r - r|
                < TOLERANCE then
              Except.ok (r - calculate_npv [-100, 1200] r / npv_derivative [-100, 1200] r)
            else irrLoop [-100, 1200] (n + 1)
              (r - calculate_npv [-100, 1200] r / npv_derivative [-100, 1200] r))
        from rfl]
    rw [if_neg (irr_step_deriv r h1 h2), irr_step_new r h1]
    by_cases hc : |11 - (12 - (1 + r)) ^ 2 / 12 - r| < TOLERANCE
    · rw [if_pos hc]
      exact ⟨_, rfl⟩
    · rw [if_neg hc]
      obtain ⟨hb1, hb2⟩ := newtonNext_bounds r h1 h2
      refine ih (11 - (12 - (1 + r)) ^ 2 / 12) hb1 hb2 ?_
      have key : (12 - (1 + (11 - (12 - (1 + r)) ^ 2 / 12))) / 12
          = ((12 - (1 + r)) / 12) ^ 2 := by ring
      rw [key, ← pow_mul, ← pow_succ']
      exact hb

theorem ratio_pow_small : 12 * ((109 : ℚ) / 120) ^ (256 : ℕ) < TOLERANCE := by
  rw [TOLERANCE, div_pow, ← mul_div_assoc, div_lt_div_iff₀ (by positivity) (by norm_num)]
  norm_num

theorem irr_tail_small :
    12 * ((12 - (1 + (1 / 10 : ℚ))) / 12) ^ (2 ^ 99) < TOLERANCE := by
  have h1 : (12 - (1 + (1 / 10 : ℚ))) / 12 = 109 / 120 := by norm_num
  rw [h1]
  have h2 : ((109 : ℚ) / 120) ^ (2 ^ 99 : ℕ) ≤ ((109 : ℚ) / 120) ^ (256 : ℕ) :=
    pow_le_pow_of_le_one (by norm_num) (by norm_num) (by norm_num)
  refine lt_of_le_of_lt ?_ ratio_pow_small
  exact mul_le_mul_of_nonneg_left h2 (by norm_num)

theorem irr_pair_big :
    ∃ v : ℚ, calculate_irr [-100, 1200] DEFAULT_GUESS = Except.ok v ∧
      10 + TOLERANCE < v := by
  have hpos : ([-100, 1200] : List ℚ).any (fun cf => cf > 0) = true := by
    norm_num [List.any_cons, List.any_nil]
  have hneg : ([-100, 1200] : List ℚ).any (fun cf => cf < 0) = true := by
    norm_num [List.any_cons, List.any_nil]
  have he : calculate_irr [-100, 1200] DEFAULT_GUESS =
      if ¬([-100, 1200] : List ℚ).any (fun cf => cf > 0) = true ∨
          ¬([-100, 1200] : List ℚ).any (fun cf => cf < 0) = true then
        Except.error "Cash flows must contain both positive and negative values"
      else irrLoop [-100, 1200] MAX_ITERATIONS DEFAULT_GUESS := by
    rw [calculate_irr, if_neg (by norm_num)]
  obtain ⟨v, hv⟩ := irrLoop_pair_converges 99 (1 / 10) (by norm_num) (by norm_num)
    irr_tail_small
  refine ⟨v, ?_, ?_⟩
  · rw [he, if_neg (by simp [hpos, hneg])]
    exact hv
  · exact irrLoop_pair_ok_bound 100 (1 / 10) (by norm_num) (by norm_num) v hv

theorem tryXirrLoop_some_range (cfs : List ℝ) (dates : List Date) :
    ∀ (n : ℕ) (r v : ℝ), tryXirrLoop cfs dates n r = some v → -1 < v ∧ v < 10 := by
  intro n
  induction n with
  | zero =>
    intro r v h
    rw [show tryXirrLoop cfs dates 0 r = none from rfl] at h
    exact Option.noConfusion h
  | succ n ih =>
    intro r v h
    rw [show tryXirrLoop cfs dates (n + 1) r
        = (if |xnpv_derivative cfs dates r| < (TOLERANCE : ℝ) then none
          else
            if |r - xnpvSum cfs dates r / xnpv_derivative cfs dates r - r|
                < (TOLERANCE : ℝ) then
              (if -1 < r - xnpvSum cfs dates r / xnpv_derivative cfs dates r ∧
                  r - xnpvSum cfs dates r / xnpv_derivative cfs dates r < 10 then
                some (r - xnpvSum cfs dates r / xnpv_derivative cfs dates r)
              else none)
            else
              tryXirrLoop cfs dates n
                (if r - xnpvSum cfs dates r / xnpv_derivative cfs dates r
                    < -(99 / 100 : ℝ) then -(99 / 100 : ℝ)
                  else
                    if r - xnpvSum cfs dates r / xnpv_derivative cfs dates r > 10 then
                      (10 : ℝ)
                    else r - xnpvSum cfs dates r / xnpv_derivative cfs dates r))
        from rfl] at h
    by_cases h1 : |xnpv_derivative cfs dates r| < (TOLERANCE : ℝ)
    · rw [if_pos h1] at h
      exact Option.noConfusion h
    · rw [if_neg h1] at h
      by_cases h2 : |r - xnpvSum cfs dates r / xnpv_derivative cfs dates r - r|
          < (TOLERANCE : ℝ)
      · rw [if_pos h2] at h
        by_cases h3 : -1 < r - xnpvSum cfs dates r / xnpv_derivative cfs dates r ∧
            r - xnpvSum cfs dates r / xnpv_derivative cfs dates r < 10
        · rw [if_pos h3] at h
          injection h with hv
          rw [← hv]
          exact h3
        · rw [if_neg h3] at h
          exact Option.noConfusion h
      · rw [if_neg h2] at h
        exact ih _ v h

theorem xirrBisect_mem (cfs : List ℝ) (dates : List Date) :
    ∀ (n : ℕ) (low high xl xh : ℝ), low ≤ high →
      low ≤ xirrBisect cfs dates n low high xl xh ∧
        xirrBisect cfs dates n low high xl xh ≤ high := by
  intro n
  induction n with
  | zero =>
    intro low high xl xh hlh
    rw [show xirrBisect cfs dates 0 low high xl xh = (low + high) / 2 from rfl]
    constructor <;> linarith
  | succ n ih =>
    intro low high xl xh hlh
    rw [show xirrBisect cfs dates (n + 1) low high xl xh
        = (if |xnpvSum cfs dates ((low + high) / 2)| < (TOLERANCE : ℝ) then
            (low + high) / 2
          else
            if xl * xnpvSum cfs dates ((low + high) / 2) < 0 then
              xirrBisect cfs dates n low ((low + high) / 2) xl
                (xnpvSum cfs dates ((low + high) / 2))
            else
              xirrBisect cfs dates n ((low + high) / 2) high
                (xnpvSum cfs dates ((low + high) / 2)) xh)
        from rfl]
    by_cases h1 : |xnpvSum cfs dates ((low + high) / 2)| < (TOLERANCE : ℝ)
    · rw [if_pos h1]
      constructor <;> linarith
    · rw [if_neg h1]
      by_cases h2 : xl * xnpvSum cfs dates ((low + high) / 2) < 0
      · rw [if_pos h2]
        have hr := ih low ((low + high) / 2) xl
          (xnpvSum cfs dates ((low + high) / 2)) (by linarith)
        exact ⟨hr.1, by linarith [hr.2]⟩
      · rw [if_neg h2]
        have hr := ih ((low + high) / 2) high
          (xnpvSum cfs dates ((low + high) / 2)) xh (by linarith)
        exact ⟨by linarith [hr.1], hr.2⟩

theorem xirrTryGuesses_some_range (cfs : List ℝ) (dates : List Date) :
    ∀ (gs : List ℝ) (v : ℝ), xirrTryGuesses cfs dates gs = some v → -1 < v ∧ v < 10 := by
  intro gs
  induction gs with
  | nil =>
    intro v h
    rw [show xirrTryGuesses cfs dates [] = none from rfl] at h
    exact Option.noConfusion h
  | cons g rest ih =>
    intro v h
    rw [show xirrTryGuesses cfs dates (g :: rest)
        = (match try_xirr_with_guess cfs dates g with
          | some r => some r
          | none => xirrTryGuesses cfs dates rest) from rfl] at h
    rcases hg : try_xirr_with_guess cfs dates g with _ | r
    · rw [hg] at h
      exact ih v h
    · rw [hg] at h
      injection h with hv
      rw [← hv]
      exact tryXirrLoop_some_range cfs dates MAX_ITERATIONS g r hg

theorem xirrBracket_fst_range (cfs : List ℝ) (dates : List Date) (xl xh : ℝ) :
    -(99 / 100 : ℝ) ≤ (xirrBracket cfs dates xl xh).1 ∧
      (xirrBracket cfs dates xl xh).1 ≤ 10 := by
  simp only [xirrBracket]
  split_ifs <;> norm_num

theorem calculate_xirr_ok_range (cfs : List ℝ) (dates : List Date) (g y : ℝ)
    (h : calculate_xirr cfs dates g = Except.ok y) : -1 < y ∧ y ≤ 10 := by
  simp only [calculate_xirr] at h
  split at h
  · exact Except.noConfusion h
  · split at h
    · exact Except.noConfusion h
    · split at h
      · exact Except.noConfusion h
      · split at h
        · rename_i r heq
          injection h with hv
          have hr := xirrTryGuesses_some_range cfs dates _ r heq
          rw [← hv]
          exact ⟨hr.1, hr.2.le⟩
        · split at h
          · rename_i hsign
            injection h with hv
            have hbr := xirrBracket_fst_range cfs dates
              (xnpvSum cfs dates (-(99 / 100))) (xnpvSum cfs dates 1)
            have hb2 := xirrBisect_mem cfs dates 100 (-(99 / 100))
              (xirrBracket cfs dates (xnpvSum cfs dates (-(99 / 100)))
                (xnpvSum cfs dates 1)).1
              (xnpvSum cfs dates (-(99 / 100)))
              (xirrBracket cfs dates (xnpvSum cfs dates (-(99 / 100)))
                (xnpvSum cfs dates 1)).2 hbr.1
            rw [← hv]
            exact ⟨by linarith [hb2.1], by linarith [hb2.2, hbr.2]⟩
          · exact Except.noConfusion h

/-- C5 (amended): every successful calculate_xirr result is clamped into the
interval (-1, 10] -- the Newton stage accepts a converged rate only inside
(-1, 10) and the bisection fallback never leaves its bracket, whose high end
is at most 10 -- whereas calculate_irr is unclamped: on the cash-flow series
[-100, 1200] it converges, from the default guess, to a rate above 10 plus
the solver tolerance.  Hence XIRR cannot in general match IRR on
evenly-spaced monthly dates; agreement is possible only when the IRR itself
lies within XIRR's clamped range. -/
theorem xirr_clamped_vs_irr :
    (∀ (cfs : List ℝ) (dates : List Date) (g y : ℝ),
        calculate_xirr cfs dates g = Except.ok y → -1 < y ∧ y ≤ 10) ∧
      ∃ v : ℚ, calculate_irr [-100, 1200] DEFAULT_GUESS = Except.ok v ∧
        10 + TOLERANCE < v :=
  ⟨fun cfs dates g y h => calculate_xirr_ok_range cfs dates g y h, irr_pair_big⟩

/-- C5 (counterexample to the spec sentence): on the two-element series
[-100, 1200] with evenly-spaced monthly dates, calculate_irr succeeds with a
rate above 10 + TOLERANCE, while calculate_xirr -- whose successful results
are clamped to at most 10 -- cannot return any rate within the solver
tolerance of it. -/
theorem xirr_irr_monthly_mismatch :
    ∃ v : ℚ, calculate_irr [-100, 1200] DEFAULT_GUESS = Except.ok v ∧
      ∀ y : ℝ, calculate_xirr [-100, 1200] (generate_monthly_dates ⟨2026, 1, 1⟩ 1)
          ((DEFAULT_GUESS : ℚ) : ℝ) = Except.ok y →
        (TOLERANCE : ℚ) < |(v : ℝ) - y| := by
  obtain ⟨v, hv, hb⟩ := irr_pair_big
  refine ⟨v, hv, fun y hy => ?_⟩
  obtain ⟨-, hy10⟩ := calculate_xirr_ok_range _ _ _ _ hy
  have hb' : (10 : ℝ) + ((TOLERANCE : ℚ) : ℝ) < (v : ℝ) := by
    have : ((10 + TOLERANCE : ℚ) : ℝ) < ((v : ℚ) : ℝ) := by exact_mod_cast hb
    push_cast at this
    linarith
  have hlt : ((TOLERANCE : ℚ) : ℝ) < (v : ℝ) - y := by linarith
  exact hlt.trans_le (le_abs_self _)

/-- C9: in the metrics orchestration of the calculate_cashflows endpoint,
whenever the leveraged-IRR computation fails (for any solver module handed to
the orchestration, and any input that actually has debt), the request still
succeeds: the unleveraged IRR, multiple and profit are returned as computed,
the three leveraged metrics come back absent (none), the LP and GP metrics
are still computed by the waterfall block, and the monthly and annual
projections are returned untouched. -/
theorem leveraged_failure_partial_metrics (M : IrrModule) (inputs : CFInput)
    (u m : ℝ) (e : String)
    (hloan : inputs.loan_amount.getD 0 > 0)
    (hu : M.xirr (unlevSeries inputs) (datesOfInput inputs) = Except.ok u)
    (hm : M.multiple (unlevSeries inputs) = Except.ok m)
    (hl : M.xirr (levSeries inputs) (datesOfInput inputs) = Except.error e) :
    calculate_cashflows M inputs = Except.ok
      { metrics :=
          { unleveraged_irr := u
            unleveraged_multiple := m
            unleveraged_profit := M.profit (unlevSeries inputs)
            leveraged_irr := none
            leveraged_multiple := none
            leveraged_profit := none
            lp_irr := (waterfallMetrics M inputs).1
            lp_multiple := (waterfallMetrics M inputs).2.1
            gp_irr := (waterfallMetrics M inputs).2.2.1
            gp_multiple := (waterfallMetrics M inputs).2.2.2 }
        annual_cashflows := annualize_cash_flows (generate_cash_flows (argsOfInput inputs))
        monthly_cashflows := generate_cash_flows (argsOfInput inputs) } := by
  have hlev : leveragedMetrics M inputs = (none, none, none) := by
    rw [leveragedMetrics, if_pos hloan, hl]
  simp only [calculate_cashflows, hu, hm, hlev]
  rfl

theorem leveraged_failure_partial_metrics_witness :
    toyCFInput.loan_amount.getD 0 > 0 ∧
    toyIrr.xirr (unlevSeries toyCFInput) (datesOfInput toyCFInput) = Except.ok 1 ∧
    toyIrr.multiple (unlevSeries toyCFInput) = Except.ok 0 ∧
    toyIrr.xirr (levSeries toyCFInput) (datesOfInput toyCFInput) = Except.error "fail" ∧
    calculate_cashflows toyIrr toyCFInput = Except.ok
      { metrics :=
          { unleveraged_irr := 1
            unleveraged_multiple := 0
            unleveraged_profit := toyIrr.profit (unlevSeries toyCFInput)
            leveraged_irr := none
            leveraged_multiple := none
            leveraged_profit := none
            lp_irr := (waterfallMetrics toyIrr toyCFInput).1
            lp_multiple := (waterfallMetrics toyIrr toyCFInput).2.1
            gp_irr := (waterfallMetrics toyIrr toyCFInput).2.2.1
            gp_multiple := (waterfallMetrics toyIrr toyCFInput).2.2.2 }
        annual_cashflows := annualize_cash_flows (generate_cash_flows (argsOfInput toyCFInput))
        monthly_cashflows := generate_cash_flows (argsOfInput toyCFInput) } := by
  have hA : argsOfInput toyCFInput = toyArgs := rfl
  have hnoi : (periodData toyArgs 0).noi = 0 := by
    simp only [toyArgs, periodData, expense_escalation_zero_rate, rent_escalation_zero_rate]
    norm_num
  have hroll : rolloverCosts toyArgs 0 = (0, 0) := by
    norm_num [toyArgs, rolloverCosts]
  have hhu : (unlevSeries toyCFInput).head? = some (-100) := by
    rw [unlevSeries, hA, generate_cash_flows, cashFlowListRaw, cashFlowGo_succ]
    simp only [List.map_cons, List.head?_cons]
    simp only [roundFlowRecord, cashFlowStep, stepCore, hnoi, hroll]
    norm_num [toyArgs]
    rw [show (-100 : ℝ) = ((-100 : ℤ) : ℝ) by norm_num, round2_intCast]
  have hhl : (levSeries toyCFInput).head? = some (-40) := by
    rw [levSeries, hA, generate_cash_flows, cashFlowListRaw, cashFlowGo_succ]
    simp only [List.map_cons, List.head?_cons]
    simp only [roundFlowRecord, cashFlowStep, stepCore, hnoi, hroll]
    norm_num [toyArgs]
    rw [show (-40 : ℝ) = ((-40 : ℤ) : ℝ) by norm_num, round2_intCast]
  have h1 : toyCFInput.loan_amount.getD 0 > 0 := by norm_num [toyCFInput]
  have h2 : toyIrr.xirr (unlevSeries toyCFInput) (datesOfInput toyCFInput) = Except.ok 1 := by
    simp only [toyIrr, hhu]
    rw [if_pos (by norm_num : (-100 : ℝ) < -50)]
  have h3 : toyIrr.multiple (unlevSeries toyCFInput) = Except.ok 0 := rfl
  have h4 : toyIrr.xirr (levSeries toyCFInput) (datesOfInput toyCFInput) = Except.error "fail" := by
    simp only [toyIrr, hhl]
    rw [if_neg (by norm_num : ¬((-40 : ℝ) < -50))]
  exact ⟨h1, h2, h3, h4,
    leveraged_failure_partial_metrics toyIrr toyCFInput 1 0 "fail" h1 h2 h3 h4⟩
